import Mathlib

/-! # Firewood cabin client: grid layout, participant registry, media switching, leave

A shallow embedding of `public/scripts/cabin.js` (the copy under
`public/scripts/cabin/cabin.js` has the same functions, without the status
indicators).  The module-level `state` object, the part of the document the
script reads and writes, and the calls it makes on its collaborators (socket,
PeerJS, Flickity, media tracks) are gathered in one record `State`; every
function of the script becomes a function on that record.

An `async` function is embedded as one step: the outcome of the media request it
awaits is an argument, and nothing else runs between the request and its
continuation.
-/

namespace Cabin

/-! ## Data model -/

/-- Participant ids (`USER_ID`, `call.metadata.id`, keys of `state.users`). -/
abbrev UserId := String

/-- Value of `track.kind`. -/
inductive TrackKind where
  | audio
  | video
  deriving DecidableEq, Repr

/-- A `MediaStreamTrack`: an object identity and its constant `kind`.  The
mutable parts of a track are kept in the state: the calls of `stop()` in
`State.stopped`, the `enabled` flag in `State.disabled`. -/
structure Track where
  id : Nat
  kind : TrackKind
  deriving DecidableEq, Repr

/-- A `MediaStream`: its tracks, in the order `getTracks()` lists them. -/
structure MediaStream where
  tracks : List Track
  deriving DecidableEq, Repr

/-- An `RTCRtpSender`.  `track` is `sender.track` (nullable); `rejects` tells
whether the promise of `replaceTrack` on this sender rejects. -/
structure Sender where
  track : Option Track
  rejects : Bool
  deriving DecidableEq, Repr

/-- A PeerJS media connection.  `peerConnection` is `call.peerConnection`, given
by the senders `getSenders()` returns; it is `none` when the property is null. -/
structure Call where
  connectionId : Nat
  peerConnection : Option (List Sender)
  deriving DecidableEq, Repr

/-- A tile: the `.video-container` element `div-<userId>`.  `muted` and
`videoOff` are the elements `muted-<userId>` and `video-off-<userId>` inside it:
`none` when the tile has no such child, `some true` when it is displayed
(`flex`), `some false` when hidden (`none`). -/
structure Tile where
  userId : UserId
  muted : Option Bool
  videoOff : Option Bool
  deriving DecidableEq, Repr

/-- The object literal `{ rows, columns }`. -/
structure Layout where
  rows : Int
  columns : Int
  deriving DecidableEq, Repr

/-- A `.video-grid` cell of the carousel.  `id` is the number `n` of the element
id `video-grid<n>`; `tiles` are its `.video-container` children in document
order; `layout` holds the inline properties `--grid-rows` and
`--grid-columns`, `none` while they have never been set. -/
structure Grid where
  id : Nat
  tiles : List Tile
  layout : Option Layout
  deriving DecidableEq, Repr

/-- A listener that `setupStreamTrackListeners` installs: the closure keeps the
participant id and the track it watches; the kind of the track tells which
indicator it drives. -/
structure TrackListener where
  userId : UserId
  track : Track
  deriving DecidableEq, Repr

/-- Errors thrown or rejected with, by name. -/
abbrev Error := String

/-- The `state` object of the script, the document, and the effects performed on
the collaborators.

* `localStream` is `state.localStream`; `state.originalStream` is assigned
  once, the same object, and never read, so it has no field of its own.
* `users` and `peers` are the objects `state.users` and `state.peers`, as
  association lists in insertion order; a value of `users` is the `Video`
  wrapper of the tile `div-<id>`, kept as that id.
* `disabled` lists the ids of the tracks whose `enabled` flag is false,
  `onended` the ids of the tracks whose `onended` property is the function
  that calls `stopScreenShare`.
* `endedListeners` and `intervals` are the `addEventListener('ended', ..)` and
  `setInterval(.., 1000)` registrations of `setupStreamTrackListeners`, in
  order.
* `grids` are the `.video-grid` elements in document order, `type` the CSS
  property `--type`, `selectedCell` the argument of the last
  `flkty.selectCell`.
* `stopped`, `closed`, `destroyed`, `emitted`, `played`, `redirects`, `alerts`
  record, in order, the calls `track.stop()`, `call.close()`,
  `state.peer.destroy()`, `state.socket.emit(..)`, `sounds.<x>.play()`,
  the redirect timers set, and `alert(..)`; `cameraRequests` records the
  `facingMode` of each `getUserMedia` request.

The icons of the control buttons and the `screen-sharing` class of the local
tile are presentation only and have no field. -/
structure State where
  localStream : Option MediaStream
  screenStream : Option MediaStream
  users : List (UserId × UserId)
  peers : List (UserId × Call)
  facing : String
  isScreenSharing : Bool
  hasLeft : Bool
  gridNumber : Int
  grids : List Grid
  type : String
  selectedCell : Nat
  disabled : List Nat
  stopped : List Track
  closed : List Nat
  destroyed : Nat
  emitted : List String
  played : List String
  redirects : Nat
  alerts : List String
  onended : List Nat
  endedListeners : List TrackListener
  intervals : List TrackListener
  cameraRequests : List String
  deriving DecidableEq, Repr

/-! ## Grid layout table -/

/-- `layouts.vertical`. -/
def layoutsVertical : List Layout :=
  [⟨1, 1⟩, ⟨2, 1⟩, ⟨3, 1⟩, ⟨2, 2⟩]

/-- `layouts.horizontal`. -/
def layoutsHorizontal : List Layout :=
  [⟨1, 1⟩, ⟨1, 2⟩, ⟨1, 3⟩, ⟨2, 2⟩]

/-- Array indexing `xs[i]` with an integer index: `undefined` (here `none`) for
a negative index or one past the end. -/
def jsIndex {α : Type} (xs : List α) (i : Int) : Option α :=
  if i < 0 then none else xs.get? i.toNat

/-- `calculateGridLayout(userCount, orientation)`:
`layoutSet[userCount - 1] || { rows: 2, columns: 2 }`. -/
def calculateGridLayout (userCount : Int) (orientation : String) : Layout :=
  let isVertical := orientation == "vertical"
  let layoutSet := if isVertical then layoutsVertical else layoutsHorizontal
  (jsIndex layoutSet (userCount - 1)).getD ⟨2, 2⟩

/-! ## Objects used as maps -/

/-- The property names a plain object such as `state.users = {}` inherits from
`Object.prototype`. -/
def objectPrototypeNames : List String :=
  ["constructor", "__proto__", "hasOwnProperty", "isPrototypeOf", "propertyIsEnumerable",
   "toLocaleString", "toString", "valueOf", "__defineGetter__", "__defineSetter__",
   "__lookupGetter__", "__lookupSetter__"]

/-- What the read `obj[key]` gives on a plain object: the value stored under the
key, or, when nothing is stored under it, the member of `Object.prototype` of
that name (a function, or the prototype itself for `__proto__`), or
`undefined`. -/
inductive Property (α : Type) where
  | own (value : α)
  | inherited
  | undefined
  deriving DecidableEq, Repr

/-- The read `obj[key]`. -/
def getProperty {α : Type} (obj : List (UserId × α)) (key : UserId) : Property α :=
  match obj.lookup key with
  | some value => Property.own value
  | none => if objectPrototypeNames.contains key then Property.inherited else Property.undefined

/-- The test `if (obj[key])`: stored objects and the members of
`Object.prototype` are truthy, `undefined` is not. -/
def Property.truthy {α : Type} : Property α → Bool
  | Property.own _ => true
  | Property.inherited => true
  | Property.undefined => false

/-- Assignment `obj[key] = value`: an existing property keeps its place, a new
one is added last, which is the order of `Object.values` for keys that are not
array indices.  (Under the key `__proto__` the assignment would replace the
prototype instead; `addRemoteUser` never assigns under an inherited name.) -/
def assign {α : Type} (obj : List (UserId × α)) (key : UserId) (value : α) :
    List (UserId × α) :=
  if (obj.lookup key).isSome then
    obj.map (fun p => if p.1 == key then (key, value) else p)
  else
    obj ++ [(key, value)]

/-- Deletion `delete obj[key]`. -/
def delete {α : Type} (obj : List (UserId × α)) (key : UserId) : List (UserId × α) :=
  obj.filter (fun p => !(p.1 == key))

/-! ## Document operations -/

/-- `document.querySelectorAll(".video-container").length`: every tile of the
document lies in a grid. -/
def tileCount (grids : List Grid) : Nat :=
  (grids.map (fun g => g.tiles.length)).sum

/-- Modelled from the spec: `Video.appendGrid(gridId)` of `Video.js`, a file of
the repository that is not among the sources.  The tile is "placed into exactly
one Grid": it becomes the last child of the first element whose id is
`video-grid<gridId>`; the call fails (`none`) when the document has no such
element. -/
def appendGrid (tile : Tile) (gridId : Int) : List Grid → Option (List Grid)
  | [] => none
  | g :: gs =>
    if (g.id : Int) = gridId then
      some ({ g with tiles := g.tiles ++ [tile] } :: gs)
    else
      (appendGrid tile gridId gs).map (fun gs1 => g :: gs1)

/-- Modelled from the spec: `Video.getVideo().remove()` of `Video.js`, a file of
the repository that is not among the sources; also `userElement.remove()` on
`div-<userId>`.  The "Close handler removes the Tile": the tile built for
`userId` leaves the document. -/
def removeTile (userId : UserId) (grids : List Grid) : List Grid :=
  grids.map (fun g => { g with tiles := g.tiles.filter (fun t => !(t.userId == userId)) })

/-- Apply `f` to the first tile of `userId` in a list of tiles, if there is
one. -/
def updateFirstTile (userId : UserId) (f : Tile → Tile) : List Tile → Option (List Tile)
  | [] => none
  | t :: ts =>
    if t.userId == userId then some (f t :: ts)
    else (updateFirstTile userId f ts).map (fun ts1 => t :: ts1)

/-- Apply `f` to the element `document.getElementById("div-" + userId)`, the
first such tile in document order; the document is unchanged when there is
none. -/
def updateTile (userId : UserId) (f : Tile → Tile) : List Grid → List Grid
  | [] => []
  | g :: gs =>
    match updateFirstTile userId f g.tiles with
    | some ts => { g with tiles := ts } :: gs
    | none => g :: updateTile userId f gs

/-- `addStatusIndicators(userId)`: both indicators are appended to the tile,
hidden.  A tile that already has an indicator keeps it: `getElementById`
goes on finding the earlier element. -/
def addStatusIndicators (s : State) (userId : UserId) : State :=
  let addBoth : Tile → Tile := fun t =>
    { t with muted := t.muted.orElse (fun _ => some false),
             videoOff := t.videoOff.orElse (fun _ => some false) }
  { s with grids := updateTile userId addBoth s.grids }

/-! ## Grid layout calculation -/

/-- `Math.ceil(userCount / 4)`. -/
def ceilQuarter (userCount : Nat) : Int :=
  ((userCount + 3) / 4 : Nat)

/-- What the `forEach` of `calculateGrid` carries from one grid to the next:
the visited grids that are still in the document, the grids created so far
(`flkty.append` puts them after every existing cell), `state.gridNumber` and the
selected cell. -/
structure GridPass where
  kept : List Grid
  appended : List Grid
  gridNumber : Int
  selectedCell : Nat
  deriving DecidableEq, Repr

/-- The callback of `grids.forEach((grid, index) => ..)` in `calculateGrid`. -/
def calculateGridStep (type : String) (p : GridPass) (grid : Grid) (index : Nat) : GridPass :=
  let gridLength := grid.tiles.length
  -- Remove empty grids
  if gridLength = 0 then
    { p with gridNumber := p.gridNumber - 1 }
  -- Create new grid if more than 4 users
  else if gridLength > 4 then
    let newGrid : Grid := { id := index + 2, tiles := grid.tiles.take 1, layout := none }
    { kept := p.kept ++ [{ grid with tiles := grid.tiles.drop 1 }],
      appended := p.appended ++ [newGrid],
      gridNumber := p.gridNumber + 1,
      selectedCell := index + 1 }
  -- Calculate grid dimensions
  else
    let layout := calculateGridLayout gridLength type
    { p with kept := p.kept ++ [{ grid with layout := some layout }] }

/-- The `forEach` over the static list `document.querySelectorAll(".video-grid")`,
from position `index` on. -/
def calculateGridLoop (type : String) : List Grid → Nat → GridPass → GridPass
  | [], _, p => p
  | grid :: rest, index, p =>
    calculateGridLoop type rest (index + 1) (calculateGridStep type p grid index)

/-- `calculateGrid()`. -/
def calculateGrid (s : State) : State :=
  let userCount := tileCount s.grids
  let p := calculateGridLoop s.type s.grids 0
    { kept := [], appended := [], gridNumber := ceilQuarter userCount,
      selectedCell := s.selectedCell }
  { s with gridNumber := p.gridNumber, grids := p.kept ++ p.appended,
           selectedCell := p.selectedCell }

/-! ## Participants -/

/-- `handleInitialStream(stream)`, with the constant `USER_ID`; `none` when
`appendGrid` throws, which leaves the stream assigned and nothing else done. -/
def handleInitialStream (USER_ID : UserId) (s : State) (stream : MediaStream) : Option State :=
  match appendGrid { userId := USER_ID, muted := none, videoOff := none } s.gridNumber s.grids with
  | none => none
  | some grids =>
    let s1 := addStatusIndicators { s with localStream := some stream, grids := grids } USER_ID
    some { s1 with emitted := s1.emitted ++ ["join-cabin"] }

/-- `addRemoteUser(userId, username, stream)`; `none` when `appendGrid` throws,
which happens before anything is written. -/
def addRemoteUser (s : State) (userId : UserId) (_username : String) (_stream : MediaStream) :
    Option State :=
  -- Prevent duplicate additions
  if (getProperty s.users userId).truthy then some s
  else
    match appendGrid { userId := userId, muted := none, videoOff := none } s.gridNumber s.grids with
    | none => none
    | some grids =>
      let s1 := calculateGrid { s with grids := grids }
      let s2 := { s1 with users := assign s1.users userId userId }
      some (addStatusIndicators s2 userId)

/-- The second block of `removeUser`:
`const peerConnection = state.peers[userId]; if (peerConnection) { peerConnection.close(); delete state.peers[userId]; }`.
Under a name inherited from `Object.prototype` the value read is truthy and has
no `close`, so the call throws a `TypeError`. -/
def removePeer (s : State) (userId : UserId) : Except Error Unit × State :=
  match getProperty s.peers userId with
  | Property.own peerConnection =>
    (Except.ok (), { s with closed := s.closed ++ [peerConnection.connectionId],
                            peers := delete s.peers userId })
  | Property.inherited => (Except.error "TypeError", s)
  | Property.undefined => (Except.ok (), s)

/-- `removeUser(userId)`: the outcome (returned, or the error thrown) and the
state left.  `state.users[userId]` is a read of a plain object: under a name
inherited from `Object.prototype` it gives a truthy value that has no
`getVideo`, and `userVideo.getVideo()` throws a `TypeError` before anything is
written.  `peerConnection.close()` is recorded in `closed`; the 'close' event
the library may raise from it is an event of its own, handled by the listener
registered on the connection. -/
def removeUser (s : State) (userId : UserId) : Except Error Unit × State :=
  match getProperty s.users userId with
  | Property.own userVideo =>
    removePeer { s with grids := removeTile userVideo s.grids, users := delete s.users userId }
      userId
  | Property.inherited => (Except.error "TypeError", s)
  | Property.undefined => removePeer s userId

/-! ## Media track management -/

/-- `stream.getVideoTracks()`. -/
def MediaStream.getVideoTracks (stream : MediaStream) : List Track :=
  stream.tracks.filter (fun t => t.kind == TrackKind.video)

/-- `stream.getAudioTracks()`. -/
def MediaStream.getAudioTracks (stream : MediaStream) : List Track :=
  stream.tracks.filter (fun t => t.kind == TrackKind.audio)

/-- `stream.removeTrack(track)`. -/
def MediaStream.removeTrack (stream : MediaStream) (track : Track) : MediaStream :=
  { tracks := stream.tracks.filter (fun t => !(t == track)) }

/-- `stream.addTrack(track)`: a track the stream already holds is not added
again. -/
def MediaStream.addTrack (stream : MediaStream) (track : Track) : MediaStream :=
  if stream.tracks.contains track then stream else { tracks := stream.tracks ++ [track] }

/-- The predicate `s => s.track && s.track.kind === 'video'`. -/
def isVideoSender (sender : Sender) : Bool :=
  match sender.track with
  | some track => track.kind == TrackKind.video
  | none => false

/-- `getSenders().find(isVideoSender)` followed by `sender.replaceTrack(newVideoTrack)`
on the sender found: the first video sender takes the new track, unless its
`replaceTrack` rejects, which the `catch` only logs. -/
def replaceOnSenders (newVideoTrack : Track) : List Sender → List Sender
  | [] => []
  | sender :: rest =>
    if isVideoSender sender then
      (if sender.rejects then sender else { sender with track := some newVideoTrack }) :: rest
    else
      sender :: replaceOnSenders newVideoTrack rest

/-- The `forEach` of `replaceVideoTrackForAllPeers` over `Object.values(state.peers)`.
Reading `getSenders` of a null `call.peerConnection` throws a `TypeError`, which
ends the loop: the connections after it are not visited. -/
def replaceVideoTrackLoop (newVideoTrack : Track) :
    List (UserId × Call) → Except Error Unit × List (UserId × Call)
  | [] => (Except.ok (), [])
  | (key, call) :: rest =>
    match call.peerConnection with
    | none => (Except.error "TypeError", (key, call) :: rest)
    | some senders =>
      let r := replaceVideoTrackLoop newVideoTrack rest
      (r.1, (key, { call with peerConnection := some (replaceOnSenders newVideoTrack senders) })
              :: r.2)

/-- `replaceVideoTrackForAllPeers(newVideoTrack)`: the outcome (returned, or the
error thrown) and the state left. -/
def replaceVideoTrackForAllPeers (s : State) (newVideoTrack : Track) :
    Except Error Unit × State :=
  let r := replaceVideoTrackLoop newVideoTrack s.peers
  (r.1, { s with peers := r.2 })

/-- `switchVideoSource(getNewStream)`: `getNewStream` is given by the outcome of
the acquisition it awaits.  The result is the outcome of the call (the new
stream, or the error it rethrows) and the state left.  `updateLocalVideoElement`
hands the element the stream object it already shows. -/
def switchVideoSource (s : State) (getNewStream : Except Error MediaStream) :
    Except Error MediaStream × State :=
  match getNewStream with
  | Except.error error => (Except.error error, s)
  | Except.ok newStream =>
    match s.localStream with
    | none => (Except.error "TypeError", s)
    | some localStream =>
      -- Stop old video track
      let s1 : State :=
        match localStream.getVideoTracks.head? with
        | some oldVideoTrack =>
          { s with stopped := s.stopped ++ [oldVideoTrack],
                   localStream := some (localStream.removeTrack oldVideoTrack) }
        | none => s
      -- Add new video track
      match newStream.getVideoTracks.head?, s1.localStream with
      | some newVideoTrack, some localStream1 =>
        let s2 := { s1 with localStream := some (localStream1.addTrack newVideoTrack) }
        -- Update UI and peers
        let r := replaceVideoTrackForAllPeers s2 newVideoTrack
        match r.1 with
        | Except.ok _ => (Except.ok newStream, r.2)
        | Except.error error => (Except.error error, r.2)
      | _, _ => (Except.error "TypeError", s1)

/-! ## Disconnect and cleanup -/

/-- The tracks of a stream that may be null. -/
def tracksOf (stream : Option MediaStream) : List Track :=
  match stream with
  | some st => st.tracks
  | none => []

/-- `disconnect()`. -/
def disconnect (s : State) : State :=
  { s with
    -- Stop all local tracks
    stopped := s.stopped ++ tracksOf s.localStream ++ tracksOf s.screenStream,
    -- Close all peer connections
    closed := s.closed ++ s.peers.map (fun p => p.2.connectionId),
    -- Destroy peer and notify server
    destroyed := s.destroyed + 1,
    emitted := s.emitted ++ ["leave-cabin"] }

/-- `handleLeave()`. -/
def handleLeave (s : State) : State :=
  if s.hasLeft then s
  else
    let s1 := disconnect s
    { s1 with played := s1.played ++ ["leave"], hasLeft := true, redirects := s1.redirects + 1 }

/-- `handleLeave()` called `n` times in a row. -/
def handleLeaveTimes : Nat → State → State
  | 0, s => s
  | n + 1, s => handleLeaveTimes n (handleLeave s)

/-! ## Status indicators -/

/-- Apply `f` to the first tile that satisfies `p`, if there is one. -/
def updateFirstWhere (p : Tile → Bool) (f : Tile → Tile) : List Tile → Option (List Tile)
  | [] => none
  | t :: ts =>
    if p t then some (f t :: ts)
    else (updateFirstWhere p f ts).map (fun ts1 => t :: ts1)

/-- Apply `f` to the first tile of the document that satisfies `p`; the document
is unchanged when there is none. -/
def updateWhere (p : Tile → Bool) (f : Tile → Tile) : List Grid → List Grid
  | [] => []
  | g :: gs =>
    match updateFirstWhere p f g.tiles with
    | some ts => { g with tiles := ts } :: gs
    | none => g :: updateWhere p f gs

/-- The tile holds the element `muted-<userId>`. -/
def hasMuted (userId : UserId) (t : Tile) : Bool :=
  t.userId == userId && t.muted.isSome

/-- The tile holds the element `video-off-<userId>`. -/
def hasVideoOff (userId : UserId) (t : Tile) : Bool :=
  t.userId == userId && t.videoOff.isSome

/-- `updateMutedIndicator(userId, isMuted)`: the first element `muted-<userId>`
of the document is displayed (`flex`) or hidden (`none`). -/
def updateMutedIndicator (s : State) (userId : UserId) (isMuted : Bool) : State :=
  let indicator : Tile → Tile := fun t => { t with muted := some isMuted }
  { s with grids := updateWhere (hasMuted userId) indicator s.grids }

/-- `updateVideoOffIndicator(userId, isVideoOff)`. -/
def updateVideoOffIndicator (s : State) (userId : UserId) (isVideoOff : Bool) : State :=
  let indicator : Tile → Tile := fun t => { t with videoOff := some isVideoOff }
  { s with grids := updateWhere (hasVideoOff userId) indicator s.grids }

/-- The tiles of the document, in document order. -/
def allTiles (grids : List Grid) : List Tile :=
  grids.flatMap (fun g => g.tiles)

/-- Whether the element `muted-<userId>` is displayed: `none` when the document
has no such element. -/
def mutedIndicator (s : State) (userId : UserId) : Option Bool :=
  ((allTiles s.grids).find? (hasMuted userId)).bind (fun t => t.muted)

/-- Whether the element `video-off-<userId>` is displayed. -/
def videoOffIndicator (s : State) (userId : UserId) : Option Bool :=
  ((allTiles s.grids).find? (hasVideoOff userId)).bind (fun t => t.videoOff)

/-! ## Media controls -/

/-- The string `track.kind`. -/
def TrackKind.name : TrackKind → String
  | TrackKind.audio => "audio"
  | TrackKind.video => "video"

/-- The flag `track.enabled`. -/
def trackEnabled (s : State) (track : Track) : Bool :=
  !(s.disabled.contains track.id)

/-- The assignment `track.enabled = value`. -/
def setEnabled (s : State) (track : Track) (value : Bool) : State :=
  if value then { s with disabled := s.disabled.filter (fun i => !(i == track.id)) }
  else if s.disabled.contains track.id then s
  else { s with disabled := s.disabled ++ [track.id] }

/-- `toggleMediaTrack(trackType)`, with the constant `USER_ID`.  On a null
`state.localStream` the call throws before anything is written;
`updateControlButton` only redraws the button. -/
def toggleMediaTrack (USER_ID : UserId) (s : State) (trackType : String) : State :=
  match s.localStream with
  | none => s
  | some localStream =>
    match localStream.tracks.find? (fun t => t.kind.name == trackType) with
    | none => s
    | some track =>
      let s1 := setEnabled s track (!(trackEnabled s track))
      -- Update local user's status indicator
      if trackType == "audio" then
        updateMutedIndicator s1 USER_ID (!(trackEnabled s1 track))
      else if trackType == "video" then
        updateVideoOffIndicator s1 USER_ID (!(trackEnabled s1 track))
      else s1

/-! ## Listeners on the tracks of a remote stream -/

/-- `setupStreamTrackListeners(stream, userId)`: for the first audio track and
the first video track, the indicator takes its initial value, and the `ended`
listener and the interval are registered. -/
def setupStreamTrackListeners (s : State) (stream : MediaStream) (userId : UserId) : State :=
  let s1 :=
    match stream.getAudioTracks.head? with
    | some audioTrack =>
      let s0 := updateMutedIndicator s userId (!(trackEnabled s audioTrack))
      { s0 with endedListeners := s0.endedListeners ++ [⟨userId, audioTrack⟩],
                intervals := s0.intervals ++ [⟨userId, audioTrack⟩] }
    | none => s
  match stream.getVideoTracks.head? with
  | some videoTrack =>
    let s2 := updateVideoOffIndicator s1 userId (!(trackEnabled s1 videoTrack))
    { s2 with endedListeners := s2.endedListeners ++ [⟨userId, videoTrack⟩],
              intervals := s2.intervals ++ [⟨userId, videoTrack⟩] }
  | none => s1

/-- The body of an `ended` listener: `updateMutedIndicator(userId, true)` for an
audio track, `updateVideoOffIndicator(userId, true)` for a video track. -/
def onTrackEnded (s : State) (l : TrackListener) : State :=
  match l.track.kind with
  | TrackKind.audio => updateMutedIndicator s l.userId true
  | TrackKind.video => updateVideoOffIndicator s l.userId true

/-- The body of an interval callback: the indicator follows `!track.enabled`. -/
def onInterval (s : State) (l : TrackListener) : State :=
  match l.track.kind with
  | TrackKind.audio => updateMutedIndicator s l.userId (!(trackEnabled s l.track))
  | TrackKind.video => updateVideoOffIndicator s l.userId (!(trackEnabled s l.track))

/-- What the timers and the tracks of remote streams deliver: the `ended` event
of a track, or one firing of the interval registered at position `i`. -/
inductive TrackEvent where
  | ended (track : Track)
  | tick (i : Nat)
  deriving DecidableEq, Repr

/-- Delivery of one event: `ended` runs the listeners registered on that track,
in order of registration; `tick i` runs the callback of interval `i`. -/
def deliver (s : State) : TrackEvent → State
  | TrackEvent.ended track =>
    (s.endedListeners.filter (fun l => l.track == track)).foldl onTrackEnded s
  | TrackEvent.tick i =>
    match s.intervals.get? i with
    | some l => onInterval s l
    | none => s

/-- Delivery of a sequence of events. -/
def deliverAll (s : State) (events : List TrackEvent) : State :=
  events.foldl deliver s

/-! ## Connections -/

/-- `handleIncomingCall(call)`, `id` being `call.metadata.id` (other than
`__proto__`): the call is answered and stored; its `stream` listener is
`onStream`, its `close` listener `onClose`. -/
def handleIncomingCall (s : State) (id : UserId) (call : Call) : State :=
  { s with peers := assign s.peers id call }

/-- `connectToNewUser(userId, username, stream)`, `call` being the connection
`state.peer.call(..)` returns and `userId` other than `__proto__`: the same two
listeners, and the call is stored. -/
def connectToNewUser (s : State) (userId : UserId) (call : Call) : State :=
  { s with peers := assign s.peers userId call }

/-- The `stream` listener of a connection:
`addRemoteUser(id, username, stream); setupStreamTrackListeners(stream, id)`. -/
def onStream (s : State) (userId : UserId) (username : String) (stream : MediaStream) :
    Option State :=
  (addRemoteUser s userId username stream).map
    (fun s1 => setupStreamTrackListeners s1 stream userId)

/-- The `close` listener of a connection, incoming or outbound:
`() => { removeUser(id); }`, with its outcome and the state left. -/
def onClose (s : State) (userId : UserId) : Except Error Unit × State :=
  removeUser s userId

/-- `handleUserDisconnected(userId, username)`, with the constant `USER_ID`: the
outcome and the state left.  When `removeUser` throws, `calculateGrid` and the
sound are not reached. -/
def handleUserDisconnected (USER_ID : UserId) (s : State) (userId : UserId) :
    Except Error Unit × State :=
  if userId == USER_ID then (Except.ok (), s)
  else
    let s1 := { s with grids := removeTile userId s.grids }
    let r := removeUser s1 userId
    match r.1 with
    | Except.error error => (Except.error error, r.2)
    | Except.ok _ =>
      let s2 := calculateGrid r.2
      (Except.ok (), { s2 with played := s2.played ++ ["userLeave"] })

/-! ## Camera flip -/

/-- `flipCamera()`: `facingMode` is `deviceCapabilities.facingMode`, and
`getUserMedia` gives the outcome of a camera request by its `facingMode`. -/
def flipCamera (s : State) (facingMode : Bool) (getUserMedia : String → Except Error MediaStream) :
    State :=
  if !facingMode then
    { s with alerts := s.alerts ++ ["Camera flipping is not supported on this device"] }
  else
    let newFacingMode := if s.facing == "user" then "environment" else "user"
    let s1 := { s with cameraRequests := s.cameraRequests ++ [newFacingMode] }
    let r := switchVideoSource s1 (getUserMedia newFacingMode)
    match r.1 with
    | Except.ok _ => { r.2 with facing := newFacingMode }
    | Except.error _ =>
      { r.2 with alerts := r.2.alerts ++ ["Failed to flip camera. Please try again."] }

/-- The other facing mode: `facing === "user" ? "environment" : "user"`. -/
def oppositeFacing (facing : String) : String :=
  if facing == "user" then "environment" else "user"

/-! ## Screen sharing -/

/-- The `catch` of `startScreenShare`: the alert is skipped for a
`NotAllowedError`. -/
def shareFailed (s : State) (error : Error) : State :=
  if error != "NotAllowedError" then
    { s with alerts := s.alerts ++ ["Failed to share screen. Please try again."] }
  else s

/-- `startScreenShare()`: `iOS` is the test of the user agent, `getDisplayMedia`
the outcome of the screen request. -/
def startScreenShare (s : State) (iOS : Bool) (getDisplayMedia : Except Error MediaStream) :
    State :=
  if iOS then
    { s with alerts := s.alerts ++ ["Screen sharing is not supported on iOS devices"] }
  else
    match getDisplayMedia with
    | Except.error error => shareFailed s error
    | Except.ok screenStream =>
      let r := switchVideoSource { s with screenStream := some screenStream }
        (Except.ok screenStream)
      match r.1 with
      | Except.error error => shareFailed r.2 error
      | Except.ok _ =>
        let s2 := { r.2 with isScreenSharing := true }
        -- Handle when user stops sharing via browser UI
        match screenStream.getVideoTracks.head? with
        | some screenTrack => { s2 with onended := s2.onended ++ [screenTrack.id] }
        | none => shareFailed s2 "TypeError"

/-- `stopScreenShare()`: `getUserMedia` gives the outcome of a camera request by
its `facingMode`. -/
def stopScreenShare (s : State) (getUserMedia : String → Except Error MediaStream) : State :=
  match s.screenStream with
  | none => s
  | some screenStream =>
    -- Stop screen tracks
    let s1 := { s with stopped := s.stopped ++ screenStream.tracks, screenStream := none }
    -- Return to camera
    let s2 := { s1 with cameraRequests := s1.cameraRequests ++ [s1.facing] }
    let r := switchVideoSource s2 (getUserMedia s1.facing)
    match r.1 with
    | Except.ok _ => { r.2 with isScreenSharing := false }
    | Except.error _ =>
      { r.2 with alerts := r.2.alerts ++ ["Failed to return to camera. Please refresh the page."] }

/-- `toggleScreenShare()`. -/
def toggleScreenShare (s : State) (iOS : Bool) (getDisplayMedia : Except Error MediaStream)
    (getUserMedia : String → Except Error MediaStream) : State :=
  if s.isScreenSharing then stopScreenShare s getUserMedia
  else startScreenShare s iOS getDisplayMedia

/-- The `ended` event of a local track: the function in its `onended` property
runs, which is the call of `stopScreenShare` when `startScreenShare` has set
it. -/
def screenTrackEnded (s : State) (track : Track)
    (getUserMedia : String → Except Error MediaStream) : State :=
  if s.onended.contains track.id then stopScreenShare s getUserMedia else s

/-! ## Leave button and page unload -/

/-- The two ways out of the room: a click on the leave button, which runs
`handleLeave`, and the `beforeunload` event of the window, whose listener is
`disconnect`. -/
inductive LeaveEvent where
  | leave
  | unload
  deriving DecidableEq, Repr

/-- The listener of one event. -/
def onLeaveEvent (s : State) : LeaveEvent → State
  | LeaveEvent.leave => handleLeave s
  | LeaveEvent.unload => disconnect s

/-- The listeners of a sequence of events, in order. -/
def onLeaveEvents (s : State) (events : List LeaveEvent) : State :=
  events.foldl onLeaveEvent s

/-! ## Measures on the grids -/

/-- `calculateGrid()` called `n` times in a row. -/
def calculateGridTimes : Nat → State → State
  | 0, s => s
  | n + 1, s => calculateGridTimes n (calculateGrid s)

/-- The total number of excess tiles: the sum over the grids of
`max(0, tiles - 4)`. -/
def excessTiles (grids : List Grid) : Nat :=
  (grids.map (fun g => g.tiles.length - 4)).sum

/-- The grids as the claims on tile conservation see them: the element id and
the tiles, without the layout. -/
def gridContents (grids : List Grid) : List (Nat × List Tile) :=
  grids.map (fun g => (g.id, g.tiles))

/-! ## The layout table of the specification -/

/-- The fixed table as the specification words it: rows and columns for 1 to 4
tiles in the vertical and in the horizontal orientation, and (2,2) for every
other count. -/
def specLayoutTable (vertical : Bool) (userCount : Int) : Layout :=
  if userCount = 1 then ⟨1, 1⟩
  else if userCount = 2 then (if vertical then ⟨2, 1⟩ else ⟨1, 2⟩)
  else if userCount = 3 then (if vertical then ⟨3, 1⟩ else ⟨1, 3⟩)
  else ⟨2, 2⟩

/-! ## Reading a pass of `calculateGrid` grid by grid -/

/-- The grid holds at least one tile. -/
def Grid.nonEmpty (g : Grid) : Bool :=
  decide (g.tiles.length ≠ 0)

/-- The grid holds more than four tiles. -/
def Grid.overfull (g : Grid) : Bool :=
  decide (4 < g.tiles.length)

/-- What one pass makes of a grid that holds tiles: an overfull grid loses its
first tile, another grid gets its layout. -/
def passGrid (type : String) (g : Grid) : Grid :=
  if 4 < g.tiles.length then { g with tiles := g.tiles.drop 1 }
  else { g with layout := some (calculateGridLayout g.tiles.length type) }

/-- The grids one pass creates for the grids from position `index` on, in the
order of creation. -/
def createdGrids : List Grid → Nat → List Grid
  | [], _ => []
  | g :: rest, index =>
    if 4 < g.tiles.length then
      { id := index + 2, tiles := g.tiles.take 1, layout := none } :: createdGrids rest (index + 1)
    else createdGrids rest (index + 1)

/-- Number of grids of the document that hold at least one tile. -/
def nonEmptyGrids (s : State) : Nat :=
  s.grids.countP Grid.nonEmpty

/-! ## The session of the scenarios -/

/-- The state the script starts from (`state = { .., hasLeft: false, gridNumber: 1 }`),
in a document whose carousel holds the one empty cell `video-grid1`. -/
def pageLoaded (type : String) : State :=
  { localStream := none, screenStream := none, users := [], peers := [],
    facing := "user", isScreenSharing := false, hasLeft := false, gridNumber := 1,
    grids := [{ id := 1, tiles := [], layout := none }], type := type,
    selectedCell := 0, disabled := [], stopped := [], closed := [], destroyed := 0,
    emitted := [], played := [], redirects := 0, alerts := [], onended := [],
    endedListeners := [], intervals := [], cameraRequests := [] }

/-- The session after `handleInitialStream` and the arrival of the streams of
four participants `a`, `b`, `c`, `d`, in vertical orientation. -/
def fiveParticipants (USER_ID a b c d : UserId) (stream : MediaStream) : Option State := do
  let s0 ← handleInitialStream USER_ID (pageLoaded "vertical") stream
  let s1 ← addRemoteUser s0 a a stream
  let s2 ← addRemoteUser s1 b b stream
  let s3 ← addRemoteUser s2 c c stream
  addRemoteUser s3 d d stream

/-- A tile as `constructLocalVideo` and `addStatusIndicators` leave it. -/
def tileOf (userId : UserId) : Tile :=
  { userId := userId, muted := some false, videoOff := some false }

/-- A document of the given grids, in vertical orientation, on the state the
script starts from. -/
def withGrids (grids : List Grid) : State :=
  { pageLoaded "vertical" with grids := grids }

/-- A camera stream: one video and one audio track. -/
def cameraStream : MediaStream :=
  { tracks := [{ id := 0, kind := TrackKind.video }, { id := 1, kind := TrackKind.audio }] }

/-- A grid of five tiles, as `appendGrid` leaves `video-grid1` when the fifth
participant arrives. -/
def fiveTileGrid : Grid :=
  { id := 1, tiles := [tileOf "me", tileOf "a", tileOf "b", tileOf "c", tileOf "d"],
    layout := some ⟨2, 2⟩ }

/-- A document of three grids: an empty one, one of five tiles, one of a single
tile. -/
def threeGrids : State :=
  withGrids [{ id := 1, tiles := [], layout := none },
    { id := 2, tiles := [tileOf "a", tileOf "b", tileOf "c", tileOf "d", tileOf "e"],
      layout := none },
    { id := 3, tiles := [tileOf "f"], layout := none }]

/-- A connection whose only sender carries the given track. -/
def callWith (connectionId : Nat) (track : Track) (rejects : Bool) : Call :=
  { connectionId := connectionId,
    peerConnection := some [{ track := some track, rejects := rejects }] }

/-- The session of `cameraStream` with the self tile and one participant "a",
whose connection sends the camera video track. -/
def twoParticipants : State :=
  { withGrids [{ id := 1, tiles := [tileOf "me", tileOf "a"], layout := some ⟨2, 1⟩ }] with
    localStream := some cameraStream,
    users := [("a", "a")],
    peers := [("a", callWith 7 { id := 0, kind := TrackKind.video } false)] }

/-- The session `twoParticipants` after the stream of a participant "b" has
arrived. -/
def threeParticipants : State :=
  { twoParticipants with
    grids := [{ id := 1, tiles := [tileOf "me", tileOf "a", tileOf "b"],
                layout := some ⟨3, 1⟩ }],
    users := [("a", "a"), ("b", "b")] }

/-- A screen stream: one video track, no audio (`audio: false`). -/
def displayStream : MediaStream :=
  { tracks := [{ id := 2, kind := TrackKind.video }] }

/-- The session `twoParticipants` when the video sender of the connection to
"a" rejects `replaceTrack`. -/
def rejectingPeer : State :=
  { twoParticipants with
    peers := [("a", callWith 7 { id := 0, kind := TrackKind.video } true)] }

/-- The camera stream a later `getUserMedia` resolves with. -/
def newCamera : MediaStream :=
  { tracks := [{ id := 5, kind := TrackKind.video }, { id := 6, kind := TrackKind.audio }] }

/-- The session `twoParticipants` after a screen share of `displayStream` has
started. -/
def sharingSession : State :=
  startScreenShare twoParticipants false (Except.ok displayStream)

/-- The session `twoParticipants` with three connections, the second of which
has a null `peerConnection`. -/
def closingPeer : State :=
  { twoParticipants with
    peers := [("a", callWith 7 { id := 0, kind := TrackKind.video } false),
      ("z", { connectionId := 3, peerConnection := none }),
      ("b", callWith 8 { id := 0, kind := TrackKind.video } false)] }

/-- The stream of the remote participant "a". -/
def remoteStream : MediaStream :=
  { tracks := [{ id := 10, kind := TrackKind.video }, { id := 11, kind := TrackKind.audio }] }

/-- The session `twoParticipants` once the listeners on the stream of "a" are
installed. -/
def listening : State :=
  setupStreamTrackListeners twoParticipants remoteStream "a"

/-- A session of five: four tiles in `video-grid1`, the tile of "d" alone in
`video-grid2`. -/
def twoGridSession : State :=
  { withGrids [{ id := 1, tiles := [tileOf "me", tileOf "a", tileOf "b", tileOf "c"],
                 layout := some ⟨2, 2⟩ },
               { id := 2, tiles := [tileOf "d"], layout := some ⟨1, 1⟩ }] with
    localStream := some cameraStream,
    gridNumber := 2,
    users := [("a", "a"), ("b", "b"), ("c", "c"), ("d", "d")],
    peers := [("d", callWith 9 { id := 0, kind := TrackKind.video } false)] }

end Cabin

namespace Cabin

/-! ## Layout table -/

theorem jsIndex_of_lt {α : Type} (xs : List α) (i : Int) (h : i < 0) : jsIndex xs i = none := by
  simp [jsIndex, h]

theorem jsIndex_of_length_le {α : Type} (xs : List α) (i : Int) (h : (xs.length : Int) ≤ i) :
    jsIndex xs i = none := by
  unfold jsIndex
  split
  · rfl
  · rw [List.get?_eq_none]
    omega

theorem lookup_vertical (userCount : Int) :
    (jsIndex layoutsVertical (userCount - 1)).getD ⟨2, 2⟩ = specLayoutTable true userCount := by
  rcases lt_or_le userCount 1 with h | h
  · rw [jsIndex_of_lt _ _ (by omega)]
    have h1 : userCount ≠ 1 := by omega
    have h2 : userCount ≠ 2 := by omega
    have h3 : userCount ≠ 3 := by omega
    simp [specLayoutTable, h1, h2, h3]
  · rcases le_or_lt 5 userCount with h5 | h5
    · rw [jsIndex_of_length_le _ _ (by simp [layoutsVertical]; omega)]
      have h1 : userCount ≠ 1 := by omega
      have h2 : userCount ≠ 2 := by omega
      have h3 : userCount ≠ 3 := by omega
      simp [specLayoutTable, h1, h2, h3]
    · have : userCount = 1 ∨ userCount = 2 ∨ userCount = 3 ∨ userCount = 4 := by omega
      rcases this with h | h | h | h <;> subst h <;> decide

theorem lookup_horizontal (userCount : Int) :
    (jsIndex layoutsHorizontal (userCount - 1)).getD ⟨2, 2⟩
      = specLayoutTable false userCount := by
  rcases lt_or_le userCount 1 with h | h
  · rw [jsIndex_of_lt _ _ (by omega)]
    have h1 : userCount ≠ 1 := by omega
    have h2 : userCount ≠ 2 := by omega
    have h3 : userCount ≠ 3 := by omega
    simp [specLayoutTable, h1, h2, h3]
  · rcases le_or_lt 5 userCount with h5 | h5
    · rw [jsIndex_of_length_le _ _ (by simp [layoutsHorizontal]; omega)]
      have h1 : userCount ≠ 1 := by omega
      have h2 : userCount ≠ 2 := by omega
      have h3 : userCount ≠ 3 := by omega
      simp [specLayoutTable, h1, h2, h3]
    · have : userCount = 1 ∨ userCount = 2 ∨ userCount = 3 ∨ userCount = 4 := by omega
      rcases this with h | h | h | h <;> subst h <;> decide

/-- C1: `calculateGridLayout(userCount, orientation)` equals the fixed table for
every input: orientation "vertical" gives (1,1), (2,1), (3,1), (2,2) for 1 to 4
tiles, any other orientation gives (1,1), (1,2), (1,3), (2,2), and every count
outside 1..4 gives (2,2). -/
theorem calculateGridLayout_eq_table (userCount : Int) (orientation : String) :
    calculateGridLayout userCount orientation
      = specLayoutTable (decide (orientation = "vertical")) userCount := by
  by_cases hv : orientation = "vertical"
  · have hb : (orientation == "vertical") = true := by simpa using hv
    simp only [calculateGridLayout, hb, hv, decide_True, if_true]
    exact lookup_vertical userCount
  · have hb : (orientation == "vertical") = false := by simpa using hv
    simp only [calculateGridLayout, hb, hv, decide_False]
    exact lookup_horizontal userCount

/-! ## One pass of `calculateGrid` -/

theorem calculateGridStep_kept (type : String) (p : GridPass) (g : Grid) (index : Nat) :
    (calculateGridStep type p g index).kept
      = p.kept ++ (if g.nonEmpty then [passGrid type g] else []) := by
  unfold calculateGridStep passGrid Grid.nonEmpty
  by_cases h0 : g.tiles.length = 0
  · simp [h0]
  · by_cases h4 : 4 < g.tiles.length
    · simp [h0, h4]
    · simp [h0, h4]

theorem calculateGridStep_appended (type : String) (p : GridPass) (g : Grid) (index : Nat) :
    (calculateGridStep type p g index).appended
      = p.appended ++ (if 4 < g.tiles.length
          then [{ id := index + 2, tiles := g.tiles.take 1, layout := none }] else []) := by
  unfold calculateGridStep
  by_cases h0 : g.tiles.length = 0
  · simp [h0]
  · by_cases h4 : 4 < g.tiles.length
    · simp [h0, h4]
    · simp [h0, h4]

theorem calculateGridStep_gridNumber (type : String) (p : GridPass) (g : Grid) (index : Nat) :
    (calculateGridStep type p g index).gridNumber
      = p.gridNumber - (if g.nonEmpty then 0 else 1) + (if g.overfull then 1 else 0) := by
  unfold calculateGridStep Grid.nonEmpty Grid.overfull
  by_cases h0 : g.tiles.length = 0
  · simp [h0]
  · by_cases h4 : 4 < g.tiles.length
    · simp [h0, h4]
    · simp [h0, h4]

theorem calculateGridLoop_kept (type : String) (gs : List Grid) (index : Nat) (p : GridPass) :
    (calculateGridLoop type gs index p).kept
      = p.kept ++ (gs.filter Grid.nonEmpty).map (passGrid type) := by
  induction gs generalizing index p with
  | nil => simp [calculateGridLoop]
  | cons g rest ih =>
    rw [calculateGridLoop, ih, calculateGridStep_kept]
    by_cases h : g.nonEmpty <;> simp [h, List.filter_cons]

theorem calculateGridLoop_appended (type : String) (gs : List Grid) (index : Nat)
    (p : GridPass) :
    (calculateGridLoop type gs index p).appended = p.appended ++ createdGrids gs index := by
  induction gs generalizing index p with
  | nil => simp [calculateGridLoop, createdGrids]
  | cons g rest ih =>
    rw [calculateGridLoop, ih, calculateGridStep_appended]
    by_cases h : 4 < g.tiles.length <;> simp [h, createdGrids]

theorem calculateGridLoop_gridNumber (type : String) (gs : List Grid) (index : Nat)
    (p : GridPass) :
    (calculateGridLoop type gs index p).gridNumber
      = p.gridNumber - ((gs.length - gs.countP Grid.nonEmpty : Nat) : Int)
          + (gs.countP Grid.overfull : Nat) := by
  induction gs generalizing index p with
  | nil => simp [calculateGridLoop]
  | cons g rest ih =>
    rw [calculateGridLoop, ih, calculateGridStep_gridNumber]
    have hle := List.countP_le_length Grid.nonEmpty (l := rest)
    by_cases h : g.nonEmpty <;> by_cases h4 : g.overfull <;>
      simp [h, h4, List.countP_cons] <;> omega

/-- The grids one pass leaves: the grids that hold tiles, each as `passGrid`
makes it, followed by the grids created. -/
theorem calculateGrid_grids (s : State) :
    (calculateGrid s).grids
      = (s.grids.filter Grid.nonEmpty).map (passGrid s.type) ++ createdGrids s.grids 0 := by
  simp [calculateGrid, calculateGridLoop_kept, calculateGridLoop_appended]

/-- The counter one pass leaves. -/
theorem calculateGrid_gridNumber (s : State) :
    (calculateGrid s).gridNumber
      = ceilQuarter (tileCount s.grids)
          - ((s.grids.length - s.grids.countP Grid.nonEmpty : Nat) : Int)
          + (s.grids.countP Grid.overfull : Nat) := by
  simp [calculateGrid, calculateGridLoop_gridNumber]

theorem filter_getElem?_of_getElem? {α : Type} (P : α → Bool) (xs : List α) (i : Nat) (x : α)
    (hx : xs[i]? = some x) (hP : P x = true) :
    (xs.filter P)[(xs.take i).countP P]? = some x := by
  induction xs generalizing i with
  | nil => simp at hx
  | cons y rest ih =>
    cases i with
    | zero =>
      simp only [List.getElem?_cons_zero, Option.some.injEq] at hx
      subst hx
      simp [List.filter_cons, hP]
    | succ k =>
      simp only [List.getElem?_cons_succ] at hx
      by_cases hy : P y = true
      · simpa [List.filter_cons, hy, List.countP_cons] using ih k hx
      · simpa [List.filter_cons, hy, List.countP_cons] using ih k hx

theorem createdGrids_getElem? (gs : List Grid) (index i : Nat) (g : Grid)
    (hg : gs[i]? = some g) (hn : 4 < g.tiles.length) :
    (createdGrids gs index)[(gs.take i).countP Grid.overfull]?
      = some { id := index + i + 2, tiles := g.tiles.take 1, layout := none } := by
  induction gs generalizing index i with
  | nil => simp at hg
  | cons y rest ih =>
    cases i with
    | zero =>
      simp only [List.getElem?_cons_zero, Option.some.injEq] at hg
      subst hg
      simp [createdGrids, hn]
    | succ k =>
      simp only [List.getElem?_cons_succ] at hg
      have h := ih (index + 1) k hg
      have e : index + 1 + k + 2 = index + (k + 1) + 2 := by omega
      rw [e] at h
      by_cases hy : 4 < y.tiles.length
      · simpa [createdGrids, hy, List.countP_cons, Grid.overfull] using h
      · simpa [createdGrids, hy, List.countP_cons, Grid.overfull] using h

theorem createdGrids_length (gs : List Grid) (index : Nat) :
    (createdGrids gs index).length = gs.countP Grid.overfull := by
  induction gs generalizing index with
  | nil => simp [createdGrids]
  | cons y rest ih =>
    by_cases hy : 4 < y.tiles.length
    · simp [createdGrids, hy, List.countP_cons, Grid.overfull, ih]
    · simp [createdGrids, hy, List.countP_cons, Grid.overfull, ih]

theorem mem_createdGrids (gs : List Grid) (index : Nat) (n : Grid)
    (hn : n ∈ createdGrids gs index) :
    ∃ g ∈ gs, 4 < g.tiles.length ∧ n.tiles = g.tiles.take 1 := by
  induction gs generalizing index with
  | nil => simp [createdGrids] at hn
  | cons y rest ih =>
    by_cases hy : 4 < y.tiles.length
    · simp only [createdGrids, hy, if_true, List.mem_cons] at hn
      rcases hn with h | h
      · exact ⟨y, by simp, hy, by rw [h]⟩
      · obtain ⟨g, hg, h4, ht⟩ := ih (index + 1) h
        exact ⟨g, by simp [hg], h4, ht⟩
    · simp only [createdGrids, hy, if_false] at hn
      obtain ⟨g, hg, h4, ht⟩ := ih (index + 1) hn
      exact ⟨g, by simp [hg], h4, ht⟩

/-- C4: a grid that holds more than four tiles when `calculateGrid` runs loses
exactly its first tile to one newly created grid: the grid keeps its other tiles
in their order, the created grid (`video-grid<index + 2>`) holds that one tile,
and the pass creates one grid for each overfull grid. -/
theorem calculateGrid_relocates_first_tile (s : State) (i : Nat) (g : Grid)
    (hg : s.grids[i]? = some g) (hn : 4 < g.tiles.length) :
    ∃ first rest, g.tiles = first :: rest ∧ rest.length = g.tiles.length - 1 ∧
      (calculateGrid s).grids[(s.grids.take i).countP Grid.nonEmpty]?
        = some { g with tiles := rest } ∧
      (calculateGrid s).grids[s.grids.countP Grid.nonEmpty
          + (s.grids.take i).countP Grid.overfull]?
        = some { id := i + 2, tiles := [first], layout := none } ∧
      (calculateGrid s).grids.length
        = s.grids.countP Grid.nonEmpty + s.grids.countP Grid.overfull := by
  obtain ⟨first, rest, htiles⟩ : ∃ first rest, g.tiles = first :: rest := by
    cases h : g.tiles with
    | nil => rw [h] at hn; simp at hn
    | cons a b => exact ⟨a, b, rfl⟩
  refine ⟨first, rest, htiles, by simp [htiles], ?_, ?_, ?_⟩
  · have hne : g.nonEmpty = true := by simp [Grid.nonEmpty, htiles]
    have hk := filter_getElem?_of_getElem? Grid.nonEmpty s.grids i g hg hne
    have hlt := (List.getElem?_eq_some.1 hk).1
    rw [calculateGrid_grids, List.getElem?_append_left (by simpa using hlt),
      List.getElem?_map, hk]
    simp only [Option.map_some', passGrid, if_pos hn]
    simp [htiles]
  · have hc := createdGrids_getElem? s.grids 0 i g hg hn
    rw [calculateGrid_grids, List.getElem?_append_right (by
      simp [List.countP_eq_length_filter])]
    simp only [List.length_map, ← List.countP_eq_length_filter, Nat.add_sub_cancel_left]
    rw [hc]
    simp [htiles]
  · rw [calculateGrid_grids]
    simp [createdGrids_length, List.countP_eq_length_filter]

/-- C4 at the grid of five tiles of `threeGrids`, which follows an empty grid. -/
theorem calculateGrid_relocates_first_tile_witness :
    threeGrids.grids[1]? = some ⟨2, [tileOf "a", tileOf "b", tileOf "c", tileOf "d", tileOf "e"], none⟩ ∧
    ∃ first rest,
      [tileOf "a", tileOf "b", tileOf "c", tileOf "d", tileOf "e"] = first :: rest ∧
      rest.length = 5 - 1 ∧
      (calculateGrid threeGrids).grids[(threeGrids.grids.take 1).countP Grid.nonEmpty]?
        = some ⟨2, rest, none⟩ ∧
      (calculateGrid threeGrids).grids[threeGrids.grids.countP Grid.nonEmpty
          + (threeGrids.grids.take 1).countP Grid.overfull]?
        = some ⟨1 + 2, [first], none⟩ ∧
      (calculateGrid threeGrids).grids.length
        = threeGrids.grids.countP Grid.nonEmpty + threeGrids.grids.countP Grid.overfull :=
  ⟨rfl, calculateGrid_relocates_first_tile threeGrids 1
    ⟨2, [tileOf "a", tileOf "b", tileOf "c", tileOf "d", tileOf "e"], none⟩ rfl (by decide)⟩

theorem passGrid_bounds (type : String) (g : Grid) (h0 : g.nonEmpty = true)
    (h5 : g.tiles.length ≤ 5) :
    1 ≤ (passGrid type g).tiles.length ∧ (passGrid type g).tiles.length ≤ 4 := by
  have h1 : g.tiles.length ≠ 0 := by simpa [Grid.nonEmpty] using h0
  unfold passGrid
  by_cases h4 : 4 < g.tiles.length
  · simp only [if_pos h4, List.length_drop]
    omega
  · simp only [if_neg h4]
    omega

/-- C5: when every grid holds at most five tiles before `calculateGrid` runs,
every grid of the document after the pass holds between one and four tiles: no
empty grid is left and none holds more than four. -/
theorem calculateGrid_grids_hold_one_to_four (s : State)
    (h : ∀ g ∈ s.grids, g.tiles.length ≤ 5) :
    ∀ g ∈ (calculateGrid s).grids, 1 ≤ g.tiles.length ∧ g.tiles.length ≤ 4 := by
  intro g hg
  rw [calculateGrid_grids, List.mem_append] at hg
  rcases hg with hg | hg
  · obtain ⟨g0, hg0, rfl⟩ := List.mem_map.1 hg
    obtain ⟨hmem, hne⟩ := List.mem_filter.1 hg0
    exact passGrid_bounds s.type g0 hne (h g0 hmem)
  · obtain ⟨g0, hmem, h4, ht⟩ := mem_createdGrids s.grids 0 g hg
    rw [ht, List.length_take]
    omega

/-- C5 at `threeGrids`. -/
theorem calculateGrid_grids_hold_one_to_four_witness :
    (∀ g ∈ threeGrids.grids, g.tiles.length ≤ 5) ∧
    ∀ g ∈ (calculateGrid threeGrids).grids, 1 ≤ g.tiles.length ∧ g.tiles.length ≤ 4 :=
  ⟨by decide, calculateGrid_grids_hold_one_to_four threeGrids (by decide)⟩

/-! ## The fifth participant -/

/-- C2: what the code leaves after the self tile and four arrivals, in vertical
orientation: `video-grid1` holds the four remote tiles with layout (2,2), the
created `video-grid2` holds the self tile and has no layout, and
`state.gridNumber` is 3. -/
theorem fiveParticipants_leaves_second_grid_without_layout :
    (fiveParticipants "me" "a" "b" "c" "d" cameraStream).map
        (fun s => (s.grids.map (fun g => (g.id, g.tiles.map (fun t => t.userId), g.layout)),
          s.gridNumber))
      = some ([(1, ["a", "b", "c", "d"], some ⟨2, 2⟩), (2, ["me"], none)], 3) := by
  decide

/-- C3: on the grid of five tiles that the fifth arrival hands to
`calculateGrid`, the pass leaves `state.gridNumber = 3` and two grids that hold
tiles; on four tiles followed by an empty grid it leaves 0 and one grid. -/
theorem calculateGrid_gridNumber_counts_twice :
    (calculateGrid (withGrids [fiveTileGrid])).gridNumber = 3 ∧
    nonEmptyGrids (calculateGrid (withGrids [fiveTileGrid])) = 2 ∧
    (calculateGrid (withGrids [⟨1, [tileOf "a", tileOf "b", tileOf "c", tileOf "d"], none⟩,
        ⟨2, [], none⟩])).gridNumber = 0 ∧
    nonEmptyGrids (calculateGrid (withGrids
      [⟨1, [tileOf "a", tileOf "b", tileOf "c", tileOf "d"], none⟩, ⟨2, [], none⟩])) = 1 := by
  decide

/-! ## Participants -/

theorem lookup_delete {α : Type} (obj : List (UserId × α)) (key : UserId) :
    (delete obj key).lookup key = none := by
  induction obj with
  | nil => rfl
  | cons p rest ih =>
    obtain ⟨k, v⟩ := p
    by_cases h : k = key
    · subst h
      simpa [delete, List.filter_cons] using ih
    · have hb : (k == key) = false := by simpa using h
      have hb2 : (key == k) = false := by simpa using fun e : key = k => h e.symm
      simp only [delete, List.filter_cons, hb, Bool.not_false, if_true, List.lookup, hb2]
      simpa [delete] using ih

theorem getProperty_of_lookup_some {α : Type} (obj : List (UserId × α)) (key : UserId)
    (value : α) (h : obj.lookup key = some value) :
    getProperty obj key = Property.own value := by
  simp [getProperty, h]

theorem getProperty_of_lookup_none {α : Type} (obj : List (UserId × α)) (key : UserId)
    (h : obj.lookup key = none) :
    getProperty obj key
      = if objectPrototypeNames.contains key then Property.inherited
        else Property.undefined := by
  simp [getProperty, h]

theorem getProperty_delete {α : Type} (obj : List (UserId × α)) (key : UserId) :
    getProperty (delete obj key) key
      = if objectPrototypeNames.contains key then Property.inherited
        else Property.undefined :=
  getProperty_of_lookup_none _ key (lookup_delete obj key)

theorem removePeer_users (s : State) (userId : UserId) :
    (removePeer s userId).2.users = s.users := by
  unfold removePeer
  split <;> rfl

theorem removePeer_peers_lookup (s : State) (userId : UserId) :
    (removePeer s userId).2.peers.lookup userId = none ∨
    ((removePeer s userId).2 = s ∧ getProperty s.peers userId = Property.inherited) := by
  unfold removePeer
  cases hp : s.peers.lookup userId with
  | some pc =>
    rw [getProperty_of_lookup_some _ _ pc hp]
    exact Or.inl (lookup_delete s.peers userId)
  | none =>
    rw [getProperty_of_lookup_none _ _ hp]
    by_cases hi : objectPrototypeNames.contains userId = true
    · rw [if_pos hi]
      exact Or.inl hp
    · rw [if_neg hi]
      exact Or.inl hp

theorem removePeer_of_lookup_none (s : State) (userId : UserId)
    (hp : s.peers.lookup userId = none) :
    (removePeer s userId).2 = s ∧
    (objectPrototypeNames.contains userId = false → removePeer s userId = (Except.ok (), s)) := by
  unfold removePeer
  rw [getProperty_of_lookup_none _ _ hp]
  by_cases hi : objectPrototypeNames.contains userId = true
  · rw [if_pos hi]
    exact ⟨rfl, fun h => by rw [hi] at h; cases h⟩
  · rw [if_neg hi]
    exact ⟨rfl, fun _ => rfl⟩

theorem removeUser_users_lookup (s : State) (userId : UserId) :
    (removeUser s userId).2.users.lookup userId = none := by
  unfold removeUser
  cases hu : s.users.lookup userId with
  | some v =>
    rw [getProperty_of_lookup_some _ _ v hu]
    simp only [removePeer_users]
    exact lookup_delete s.users userId
  | none =>
    rw [getProperty_of_lookup_none _ _ hu]
    by_cases hi : objectPrototypeNames.contains userId = true
    · rw [if_pos hi]
      exact hu
    · rw [if_neg hi]
      simp only [removePeer_users]
      exact hu

theorem removeUser_peers_lookup (s : State) (userId : UserId)
    (hi : objectPrototypeNames.contains userId = false) :
    (removeUser s userId).2.peers.lookup userId = none := by
  have key : ∀ t : State, (removePeer t userId).2.peers.lookup userId = none := by
    intro t
    rcases removePeer_peers_lookup t userId with h | ⟨_, h⟩
    · exact h
    · cases hp : t.peers.lookup userId with
      | some pc => rw [getProperty_of_lookup_some _ _ pc hp] at h; cases h
      | none =>
        rw [getProperty_of_lookup_none _ _ hp, hi] at h
        cases h
  unfold removeUser
  cases hu : s.users.lookup userId with
  | some v =>
    rw [getProperty_of_lookup_some _ _ v hu]
    exact key _
  | none =>
    rw [getProperty_of_lookup_none _ _ hu, hi]
    exact key _

theorem removeUser_of_users_lookup_none (t : State) (userId : UserId)
    (hu : t.users.lookup userId = none) :
    removeUser t userId
      = if objectPrototypeNames.contains userId then (Except.error "TypeError", t)
        else removePeer t userId := by
  unfold removeUser
  rw [getProperty_of_lookup_none _ _ hu]
  by_cases hi : objectPrototypeNames.contains userId = true
  · rw [if_pos hi, if_pos hi]
  · rw [if_neg hi, if_neg hi]

/-- The state `removeUser` leaves is left as it is by a second `removeUser` for
the same id, whatever the id. -/
theorem removeUser_state_again (s : State) (userId : UserId) :
    (removeUser (removeUser s userId).2 userId).2 = (removeUser s userId).2 := by
  rw [removeUser_of_users_lookup_none _ userId (removeUser_users_lookup s userId)]
  by_cases hi : objectPrototypeNames.contains userId = true
  · rw [if_pos hi]
  · have hi2 : objectPrototypeNames.contains userId = false := by simpa using hi
    rw [if_neg hi]
    exact (removePeer_of_lookup_none _ userId (removeUser_peers_lookup s userId hi2)).1

/-- For an id that is no name of `Object.prototype`, `removeUser` returns, a
second call returns with the state of the first and closes no connection again,
and an id in neither map leaves the state unchanged. -/
theorem removeUser_of_plain_id (s : State) (userId : UserId)
    (hi : objectPrototypeNames.contains userId = false) :
    (removeUser s userId).1 = Except.ok () ∧
    removeUser (removeUser s userId).2 userId = (Except.ok (), (removeUser s userId).2) ∧
    (s.users.lookup userId = none → s.peers.lookup userId = none →
      removeUser s userId = (Except.ok (), s)) := by
  have absent : ∀ t : State, t.users.lookup userId = none → t.peers.lookup userId = none →
      removeUser t userId = (Except.ok (), t) := by
    intro t hu hp
    unfold removeUser
    rw [getProperty_of_lookup_none _ _ hu, hi]
    exact (removePeer_of_lookup_none t userId hp).2 hi
  have okPeer : ∀ t : State, (removePeer t userId).1 = Except.ok () := by
    intro t
    unfold removePeer
    cases hp : t.peers.lookup userId with
    | some pc => rw [getProperty_of_lookup_some _ _ pc hp]
    | none => rw [getProperty_of_lookup_none _ _ hp, hi]; rfl
  refine ⟨?_, absent _ (removeUser_users_lookup s userId)
    (removeUser_peers_lookup s userId hi), absent s⟩
  unfold removeUser
  cases hu : s.users.lookup userId with
  | some v =>
    rw [getProperty_of_lookup_some _ _ v hu]
    exact okPeer _
  | none =>
    rw [getProperty_of_lookup_none _ _ hu, hi]
    exact okPeer _

/-- C6: what the code does for the id "constructor", which is in neither
`state.users` nor `state.peers` of `twoParticipants` (nor of the page just
loaded): the read `state.users["constructor"]` gives the inherited function, the
guard passes and `removeUser` throws a `TypeError`, leaving the state as it
was. -/
theorem removeUser_throws_on_inherited_name :
    twoParticipants.users.lookup "constructor" = none ∧
    twoParticipants.peers.lookup "constructor" = none ∧
    getProperty twoParticipants.users "constructor" = Property.inherited ∧
    (removeUser twoParticipants "constructor").1 = Except.error "TypeError" ∧
    (removeUser twoParticipants "constructor").2 = twoParticipants ∧
    (removeUser (pageLoaded "vertical") "constructor").1 = Except.error "TypeError" ∧
    (removeUser twoParticipants "z").1 = Except.ok () :=
  ⟨by decide, by decide, by decide, rfl, by decide, rfl, rfl⟩

theorem lookup_assign {α : Type} (obj : List (UserId × α)) (key : UserId) (value : α) :
    ((assign obj key value).lookup key).isSome = true := by
  unfold assign
  by_cases h : (obj.lookup key).isSome = true
  · rw [if_pos h]
    induction obj with
    | nil => simp at h
    | cons p rest ih =>
      obtain ⟨k, v⟩ := p
      by_cases hk : k = key
      · have hb : (k == key) = true := by simpa using hk
        simp only [List.map_cons, hb, if_true]
        simp [List.lookup]
      · have hb : (k == key) = false := by simpa using hk
        have hb2 : (key == k) = false := by simpa using fun e : key = k => hk e.symm
        simp only [List.lookup, hb2] at h
        simp only [List.map_cons, hb, Bool.false_eq_true, if_false]
        simp only [List.lookup, hb2]
        exact ih h
  · rw [if_neg h]
    induction obj with
    | nil => simp [List.lookup]
    | cons p rest ih =>
      obtain ⟨k, v⟩ := p
      by_cases hk : k = key
      · subst hk
        simp [List.lookup] at h
      · have hb2 : (key == k) = false := by simpa using fun e : key = k => hk e.symm
        simp only [List.lookup, hb2] at h
        simp only [List.cons_append, List.lookup, hb2]
        exact ih h

theorem addRemoteUser_guard_after (s s1 : State) (userId : UserId) (username : String)
    (stream : MediaStream) (h : addRemoteUser s userId username stream = some s1) :
    (getProperty s1.users userId).truthy = true := by
  unfold addRemoteUser at h
  by_cases hu : (getProperty s.users userId).truthy = true
  · rw [if_pos hu] at h
    cases h
    exact hu
  · rw [if_neg hu] at h
    cases ha : appendGrid { userId := userId, muted := none, videoOff := none }
        s.gridNumber s.grids with
    | none => simp [ha] at h
    | some grids =>
      simp only [ha, Option.some.injEq] at h
      subst h
      have hl := lookup_assign (calculateGrid { s with grids := grids }).users userId userId
      cases hv : (assign (calculateGrid { s with grids := grids }).users userId userId).lookup
          userId with
      | none => rw [hv] at hl; cases hl
      | some v =>
        have : getProperty (addStatusIndicators
            { calculateGrid { s with grids := grids } with
              users := assign (calculateGrid { s with grids := grids }).users userId userId }
            userId).users userId = Property.own v :=
          getProperty_of_lookup_some _ userId v hv
        rw [this]
        rfl

/-- C7: when `state.users` already has an entry for `userId`,
`addRemoteUser(userId, username, stream)` returns with the whole state
unchanged (users, tiles, grids, `gridNumber`); hence after an arrival that was
handled, another arrival for the same id changes nothing. -/
theorem addRemoteUser_duplicate (s : State) (userId : UserId) (username : String)
    (stream : MediaStream) :
    ((s.users.lookup userId).isSome = true →
      addRemoteUser s userId username stream = some s) ∧
    (∀ s1 username2 stream2, addRemoteUser s userId username stream = some s1 →
      addRemoteUser s1 userId username2 stream2 = some s1) := by
  have key : ∀ (t : State) (n : String) (st : MediaStream),
      (getProperty t.users userId).truthy = true → addRemoteUser t userId n st = some t := by
    intro t n st ht
    simp [addRemoteUser, ht]
  refine ⟨fun h => key s username stream ?_, fun s1 username2 stream2 h =>
    key s1 username2 stream2 (addRemoteUser_guard_after s s1 userId username stream h)⟩
  cases hv : s.users.lookup userId with
  | none => rw [hv] at h; cases h
  | some v =>
    rw [getProperty_of_lookup_some _ userId v hv]
    rfl

/-- C7 at `twoParticipants`: a second stream of "a" changes nothing; the stream
of the new "b" gives `threeParticipants`, and a second one changes nothing. -/
theorem addRemoteUser_duplicate_witness :
    (twoParticipants.users.lookup "a").isSome = true ∧
    addRemoteUser twoParticipants "a" "A" cameraStream = some twoParticipants ∧
    addRemoteUser twoParticipants "b" "B" cameraStream = some threeParticipants ∧
    addRemoteUser threeParticipants "b" "B" cameraStream = some threeParticipants :=
  ⟨by decide, (addRemoteUser_duplicate twoParticipants "a" "A" cameraStream).1 (by decide),
    by decide,
    (addRemoteUser_duplicate twoParticipants "b" "B" cameraStream).2 threeParticipants "B"
      cameraStream (by decide)⟩

/-! ## Switching the video source -/

theorem isVideoSender_replaced (sender : Sender) (newVideoTrack : Track)
    (hk : newVideoTrack.kind = TrackKind.video) :
    isVideoSender { sender with track := some newVideoTrack } = true := by
  simp [isVideoSender, hk]

theorem find_replaceOnSenders (newVideoTrack : Track)
    (hk : newVideoTrack.kind = TrackKind.video) (senders : List Sender) (sd : Sender)
    (hf : (replaceOnSenders newVideoTrack senders).find? isVideoSender = some sd) :
    (sd.rejects = false → sd.track = some newVideoTrack) ∧
    (sd.rejects = true → senders.find? isVideoSender = some sd) := by
  induction senders with
  | nil => simp [replaceOnSenders] at hf
  | cons sender rest ih =>
    by_cases hv : isVideoSender sender = true
    · by_cases hr : sender.rejects = true
      · have e : replaceOnSenders newVideoTrack (sender :: rest) = sender :: rest := by
          simp [replaceOnSenders, hv, hr]
        rw [e, List.find?_cons, hv] at hf
        have hsd : sender = sd := Option.some.inj hf
        subst hsd
        refine ⟨fun h => ?_, fun _ => ?_⟩
        · rw [hr] at h
          cases h
        · rw [List.find?_cons, hv]
      · have hr2 : sender.rejects = false := by simpa using hr
        have e : replaceOnSenders newVideoTrack (sender :: rest)
            = { sender with track := some newVideoTrack } :: rest := by
          simp [replaceOnSenders, hv, hr2]
        rw [e, List.find?_cons, isVideoSender_replaced sender newVideoTrack hk] at hf
        have hsd : { sender with track := some newVideoTrack } = sd := Option.some.inj hf
        subst hsd
        refine ⟨fun _ => rfl, fun h => ?_⟩
        simp [hr2] at h
    · have hv2 : isVideoSender sender = false := by simpa using hv
      have e : replaceOnSenders newVideoTrack (sender :: rest)
          = sender :: replaceOnSenders newVideoTrack rest := by
        simp [replaceOnSenders, hv2]
      rw [e, List.find?_cons, hv2] at hf
      obtain ⟨h1, h2⟩ := ih hf
      refine ⟨h1, fun h => ?_⟩
      rw [List.find?_cons, hv2]
      exact h2 h

theorem replaceVideoTrackLoop_keys (newVideoTrack : Track) (peers : List (UserId × Call)) :
    (replaceVideoTrackLoop newVideoTrack peers).2.map (fun p => p.1)
      = peers.map (fun p => p.1) := by
  induction peers with
  | nil => rfl
  | cons p rest ih =>
    obtain ⟨key, call⟩ := p
    cases hc : call.peerConnection with
    | none => simp [replaceVideoTrackLoop, hc]
    | some senders => simpa [replaceVideoTrackLoop, hc] using ih

theorem replaceVideoTrackLoop_ok (newVideoTrack : Track) (peers : List (UserId × Call))
    (hok : (replaceVideoTrackLoop newVideoTrack peers).1 = Except.ok ()) :
    ∀ p ∈ (replaceVideoTrackLoop newVideoTrack peers).2,
      ∃ senders, p.2.peerConnection = some (replaceOnSenders newVideoTrack senders) ∧
        (p.1, { p.2 with peerConnection := some senders }) ∈ peers := by
  induction peers with
  | nil => intro p hp; simp [replaceVideoTrackLoop] at hp
  | cons q rest ih =>
    obtain ⟨key, call⟩ := q
    cases hc : call.peerConnection with
    | none => simp [replaceVideoTrackLoop, hc] at hok
    | some senders =>
      simp only [replaceVideoTrackLoop, hc] at hok ⊢
      intro p hp
      rcases List.mem_cons.1 hp with h | h
      · refine ⟨senders, by rw [h], ?_⟩
        rw [h]
        obtain ⟨cid, pc⟩ := call
        simp only at hc
        subst hc
        simp
      · obtain ⟨sn, h1, h2⟩ := ih hok p h
        exact ⟨sn, h1, List.mem_cons_of_mem _ h2⟩

theorem head?_eq_some_mem {α : Type} (xs : List α) (x : α) (h : xs.head? = some x) :
    x ∈ xs := by
  cases xs with
  | nil => simp at h
  | cons y rest =>
    simp only [List.head?_cons, Option.some.injEq] at h
    simp [h]

theorem kind_of_head_video (stream : MediaStream) (t : Track)
    (h : stream.getVideoTracks.head? = some t) : t.kind = TrackKind.video := by
  have hm := head?_eq_some_mem _ _ h
  simp only [MediaStream.getVideoTracks, List.mem_filter] at hm
  simpa using hm.2

/-- The local stream after the swap of its one video track `v` for `nv`. -/
theorem swap_video_track (localStream : MediaStream) (v a nv : Track)
    (hv : localStream.getVideoTracks = [v]) (ha : localStream.getAudioTracks = [a])
    (hk : nv.kind = TrackKind.video) :
    ((localStream.removeTrack v).addTrack nv).getVideoTracks = [nv] ∧
    ((localStream.removeTrack v).addTrack nv).getAudioTracks = [a] := by
  have hvk : v.kind = TrackKind.video := by
    have : v ∈ localStream.getVideoTracks := by simp [hv]
    simp only [MediaStream.getVideoTracks, List.mem_filter] at this
    simpa using this.2
  have hak : a.kind = TrackKind.audio := by
    have : a ∈ localStream.getAudioTracks := by simp [ha]
    simp only [MediaStream.getAudioTracks, List.mem_filter] at this
    simpa using this.2
  have hav : a ≠ v := by
    intro e
    rw [e, hvk] at hak
    cases hak
  have h1 : (localStream.removeTrack v).getVideoTracks = [] := by
    have : (localStream.removeTrack v).getVideoTracks
        = localStream.getVideoTracks.filter (fun t => !(t == v)) := by
      simp only [MediaStream.getVideoTracks, MediaStream.removeTrack, List.filter_filter]
      congr 1
      funext t
      exact Bool.and_comm _ _
    rw [this, hv]
    simp
  have h2 : (localStream.removeTrack v).getAudioTracks = [a] := by
    have : (localStream.removeTrack v).getAudioTracks
        = localStream.getAudioTracks.filter (fun t => !(t == v)) := by
      simp only [MediaStream.getAudioTracks, MediaStream.removeTrack, List.filter_filter]
      congr 1
      funext t
      exact Bool.and_comm _ _
    rw [this, ha]
    simp [hav]
  have h3 : (localStream.removeTrack v).tracks.contains nv = false := by
    by_contra hc
    have hc2 : nv ∈ (localStream.removeTrack v).tracks := by simpa using hc
    have : nv ∈ (localStream.removeTrack v).getVideoTracks := by
      simp only [MediaStream.getVideoTracks, List.mem_filter]
      exact ⟨hc2, by simp [hk]⟩
    rw [h1] at this
    simp at this
  have hka : ¬ nv.kind = TrackKind.audio := by rw [hk]; decide
  constructor
  · simp only [MediaStream.addTrack, h3, Bool.false_eq_true, if_false]
    simp only [MediaStream.getVideoTracks] at h1 ⊢
    simp [List.filter_append, h1, hk]
  · simp only [MediaStream.addTrack, h3, Bool.false_eq_true, if_false]
    simp only [MediaStream.getAudioTracks] at h2 ⊢
    simp [List.filter_append, h2, hka]

/-- The senders after `replaceOnSenders`: the same list when no sender carries a
video track, otherwise the same list with the first video sender carrying the
new track, unless that sender rejects. -/
theorem replaceOnSenders_split (newVideoTrack : Track) (senders : List Sender) :
    ((∀ x ∈ senders, isVideoSender x = false) ∧
      replaceOnSenders newVideoTrack senders = senders) ∨
    ∃ pre sd post, senders = pre ++ sd :: post ∧ (∀ x ∈ pre, isVideoSender x = false) ∧
      isVideoSender sd = true ∧
      replaceOnSenders newVideoTrack senders
        = pre ++ (if sd.rejects then sd else { sd with track := some newVideoTrack }) :: post := by
  induction senders with
  | nil => exact Or.inl ⟨by simp, rfl⟩
  | cons sender rest ih =>
    by_cases hv : isVideoSender sender = true
    · refine Or.inr ⟨[], sender, rest, rfl, by simp, hv, ?_⟩
      simp only [replaceOnSenders, hv, if_true, List.nil_append]
    · have hv2 : isVideoSender sender = false := by simpa using hv
      have e : replaceOnSenders newVideoTrack (sender :: rest)
          = sender :: replaceOnSenders newVideoTrack rest := by
        simp [replaceOnSenders, hv2]
      rcases ih with ⟨hall, hsame⟩ | ⟨pre, sd, post, hsplit, hpre, hsd, hrep⟩
      · refine Or.inl ⟨?_, by rw [e, hsame]⟩
        intro x hx
        rcases List.mem_cons.1 hx with h | h
        · rw [h]; exact hv2
        · exact hall x h
      · refine Or.inr ⟨sender :: pre, sd, post, by rw [hsplit]; rfl, ?_, hsd,
          by rw [e, hrep]; rfl⟩
        intro x hx
        rcases List.mem_cons.1 hx with h | h
        · rw [h]; exact hv2
        · exact hpre x h

/-- When the `forEach` of `replaceVideoTrackForAllPeers` completes, the
connection at each position is the one that was there, with `replaceOnSenders`
applied to its senders. -/
theorem replaceVideoTrackLoop_getElem (newVideoTrack : Track) (peers : List (UserId × Call))
    (hok : (replaceVideoTrackLoop newVideoTrack peers).1 = Except.ok ())
    (i : Nat) (key : UserId) (call : Call) (h : peers[i]? = some (key, call)) :
    ∃ before, call.peerConnection = some before ∧
      (replaceVideoTrackLoop newVideoTrack peers).2[i]?
        = some (key, { call with
            peerConnection := some (replaceOnSenders newVideoTrack before) }) := by
  induction peers generalizing i with
  | nil => simp at h
  | cons q rest ih =>
    obtain ⟨k, c⟩ := q
    cases hc : c.peerConnection with
    | none => simp [replaceVideoTrackLoop, hc] at hok
    | some senders =>
      simp only [replaceVideoTrackLoop, hc] at hok ⊢
      cases i with
      | zero =>
        simp only [List.getElem?_cons_zero, Option.some.injEq, Prod.mk.injEq] at h
        obtain ⟨hk, hcall⟩ := h
        subst hk
        subst hcall
        exact ⟨senders, hc, by simp⟩
      | succ j =>
        simp only [List.getElem?_cons_succ] at h ⊢
        exact ih hok j h

/-- C8, counterexample: on `rejectingPeer` the switch to `displayStream`
succeeds, the local stream takes track 2, and the video sender of the
connection to "a" still carries track 0. -/
theorem switchVideoSource_rejecting_sender_keeps_track :
    (switchVideoSource rejectingPeer (Except.ok displayStream)).1 = Except.ok displayStream ∧
    rejectingPeer.localStream = some cameraStream ∧
    cameraStream.getVideoTracks = [{ id := 0, kind := TrackKind.video }] ∧
    cameraStream.getAudioTracks = [{ id := 1, kind := TrackKind.audio }] ∧
    displayStream.getVideoTracks.head? = some { id := 2, kind := TrackKind.video } ∧
    (switchVideoSource rejectingPeer (Except.ok displayStream)).2.peers
      = [("a", callWith 7 { id := 0, kind := TrackKind.video } true)] ∧
    ¬ (∀ p ∈ (switchVideoSource rejectingPeer (Except.ok displayStream)).2.peers,
        ∀ senders sd, p.2.peerConnection = some senders →
          senders.find? isVideoSender = some sd →
          sd.track = some { id := 2, kind := TrackKind.video }) := by
  refine ⟨rfl, by decide, by decide, by decide, by decide, by decide, ?_⟩
  intro h
  have h2 := h ("a", callWith 7 { id := 0, kind := TrackKind.video } true) (by decide)
    [{ track := some { id := 0, kind := TrackKind.video }, rejects := true }]
    { track := some { id := 0, kind := TrackKind.video }, rejects := true } rfl (by decide)
  exact absurd h2 (by decide)

/-- C8, amended: when `switchVideoSource` succeeds on a local stream that holds
exactly one video track and one audio track, it returns the acquired stream, the
local stream afterwards holds exactly one video track, the first video track of
the acquired stream, and the same audio track; the connections of `state.peers`
are the same, each has its senders, and the first video sender of each carries
the new track when it accepted the replacement and is the sender it was, with
its track, when it rejected.  Read from the state before the call: the
connection at each position of `state.peers` is still there with every sender it
had, in order, all unchanged except the first sender that carried a video track,
which now carries the new track unless it rejected. -/
theorem switchVideoSource_success (s : State) (newStream result localStream : MediaStream)
    (v a : Track) (hl : s.localStream = some localStream)
    (hv : localStream.getVideoTracks = [v]) (ha : localStream.getAudioTracks = [a])
    (hok : (switchVideoSource s (Except.ok newStream)).1 = Except.ok result) :
    result = newStream ∧
    ∃ nv after,
      newStream.getVideoTracks.head? = some nv ∧
      (switchVideoSource s (Except.ok newStream)).2.localStream = some after ∧
      after.getVideoTracks = [nv] ∧ after.getAudioTracks = [a] ∧
      (switchVideoSource s (Except.ok newStream)).2.peers.map (fun p => p.1)
        = s.peers.map (fun p => p.1) ∧
      (∀ p ∈ (switchVideoSource s (Except.ok newStream)).2.peers,
        ∃ before senders, p.2.peerConnection = some senders ∧
          (p.1, { p.2 with peerConnection := some before }) ∈ s.peers ∧
          ∀ sd, senders.find? isVideoSender = some sd →
            (sd.rejects = false → sd.track = some nv) ∧
            (sd.rejects = true → before.find? isVideoSender = some sd)) ∧
      ∀ (i : Nat) (key : UserId) (call : Call), s.peers[i]? = some (key, call) →
        ∃ before senders, call.peerConnection = some before ∧
          (switchVideoSource s (Except.ok newStream)).2.peers[i]?
            = some (key, { call with peerConnection := some senders }) ∧
          (((∀ x ∈ before, isVideoSender x = false) ∧ senders = before) ∨
            ∃ pre sd post, before = pre ++ sd :: post ∧
              (∀ x ∈ pre, isVideoSender x = false) ∧ isVideoSender sd = true ∧
              senders = pre ++ (if sd.rejects then sd
                else { sd with track := some nv }) :: post) := by
  have hh : localStream.getVideoTracks.head? = some v := by rw [hv]; rfl
  cases hnv : newStream.getVideoTracks.head? with
  | none =>
    simp [switchVideoSource, hl, hh, hnv] at hok
  | some nv =>
    have hk := kind_of_head_video newStream nv hnv
    obtain ⟨hsv, hsa⟩ := swap_video_track localStream v a nv hv ha hk
    simp only [switchVideoSource, hl, hh, hnv, replaceVideoTrackForAllPeers] at hok ⊢
    cases hr : (replaceVideoTrackLoop nv s.peers).1 with
    | error e =>
      simp [hr] at hok
    | ok u =>
      simp only [hr] at hok ⊢
      refine ⟨(Except.ok.inj hok).symm, nv, _, rfl, rfl, hsv, hsa,
        replaceVideoTrackLoop_keys nv s.peers, ?_, ?_⟩
      · intro p hp
        obtain ⟨before, h1, h2⟩ := replaceVideoTrackLoop_ok nv s.peers hr p hp
        exact ⟨before, _, h1, h2, fun sd hsd => find_replaceOnSenders nv hk before sd hsd⟩
      · intro i key call hi
        obtain ⟨before, hb, hget⟩ := replaceVideoTrackLoop_getElem nv s.peers hr i key call hi
        refine ⟨before, replaceOnSenders nv before, hb, hget, ?_⟩
        rcases replaceOnSenders_split nv before with ⟨hall, hsame⟩ | ⟨pre, sd, post, h1, h2, h3, h4⟩
        · exact Or.inl ⟨hall, hsame⟩
        · exact Or.inr ⟨pre, sd, post, h1, h2, h3, h4⟩

/-- C8, amended, at `twoParticipants`, whose sender accepts: after the switch to
`displayStream` the local stream holds the screen track 2 and the audio track 1,
and the sender of the connection to "a" carries track 2. -/
theorem switchVideoSource_success_witness :
    twoParticipants.localStream = some cameraStream ∧
    cameraStream.getVideoTracks = [{ id := 0, kind := TrackKind.video }] ∧
    cameraStream.getAudioTracks = [{ id := 1, kind := TrackKind.audio }] ∧
    (switchVideoSource twoParticipants (Except.ok displayStream)).1 = Except.ok displayStream ∧
    (switchVideoSource twoParticipants (Except.ok displayStream)).2.peers
      = [("a", callWith 7 { id := 2, kind := TrackKind.video } false)] ∧
    ∃ nv after,
      displayStream.getVideoTracks.head? = some nv ∧
      (switchVideoSource twoParticipants (Except.ok displayStream)).2.localStream
        = some after ∧
      after.getVideoTracks = [nv] ∧
      after.getAudioTracks = [{ id := 1, kind := TrackKind.audio }] ∧
      (switchVideoSource twoParticipants (Except.ok displayStream)).2.peers.map (fun p => p.1)
        = twoParticipants.peers.map (fun p => p.1) ∧
      (∀ p ∈ (switchVideoSource twoParticipants (Except.ok displayStream)).2.peers,
        ∃ before senders, p.2.peerConnection = some senders ∧
          (p.1, { p.2 with peerConnection := some before }) ∈ twoParticipants.peers ∧
          ∀ sd, senders.find? isVideoSender = some sd →
            (sd.rejects = false → sd.track = some nv) ∧
            (sd.rejects = true → before.find? isVideoSender = some sd)) ∧
      ∀ (i : Nat) (key : UserId) (call : Call),
        twoParticipants.peers[i]? = some (key, call) →
        ∃ before senders, call.peerConnection = some before ∧
          (switchVideoSource twoParticipants (Except.ok displayStream)).2.peers[i]?
            = some (key, { call with peerConnection := some senders }) ∧
          (((∀ x ∈ before, isVideoSender x = false) ∧ senders = before) ∨
            ∃ pre sd post, before = pre ++ sd :: post ∧
              (∀ x ∈ pre, isVideoSender x = false) ∧ isVideoSender sd = true ∧
              senders = pre ++ (if sd.rejects then sd
                else { sd with track := some nv }) :: post) :=
  ⟨rfl, by decide, by decide, rfl, by decide,
    (switchVideoSource_success twoParticipants displayStream displayStream cameraStream
      { id := 0, kind := TrackKind.video } { id := 1, kind := TrackKind.audio }
      rfl (by decide) (by decide) rfl).2⟩

/-- C9: when the acquisition fails with `error`, `switchVideoSource` fails with
that error and the whole state is the one from before the call: the local
stream and its tracks, the record of stopped tracks, and the senders of every
connection. -/
theorem switchVideoSource_acquisition_failure (s : State) (error : Error) :
    switchVideoSource s (Except.error error) = (Except.error error, s) ∧
    (switchVideoSource s (Except.error error)).2.localStream = s.localStream ∧
    (switchVideoSource s (Except.error error)).2.stopped = s.stopped ∧
    (switchVideoSource s (Except.error error)).2.peers = s.peers :=
  ⟨rfl, rfl, rfl, rfl⟩

/-! ## Leaving -/

theorem handleLeave_hasLeft (s : State) : (handleLeave s).hasLeft = true := by
  unfold handleLeave
  by_cases h : s.hasLeft = true
  · simp [h]
  · simp [h]

theorem handleLeave_of_hasLeft (s : State) (h : s.hasLeft = true) : handleLeave s = s := by
  simp [handleLeave, h]

theorem handleLeaveTimes_of_hasLeft (n : Nat) (s : State) (h : s.hasLeft = true) :
    handleLeaveTimes n s = s := by
  induction n with
  | zero => rfl
  | succ k ih => rw [handleLeaveTimes, handleLeave_of_hasLeft s h, ih]

/-- C10: from a state with `hasLeft = false`, calling `handleLeave` any number
`n ≥ 1` of times leaves the state of one call: `hasLeft` is true, one
'leave-cabin' has been emitted, and `disconnect` has run once (the local and
screen tracks stopped once, each connection closed once, the peer destroyed
once, one redirect timer set); with `hasLeft = true`, `handleLeave` changes
nothing. -/
theorem handleLeave_once (s : State) (n : Nat) :
    (s.hasLeft = false → 1 ≤ n →
      handleLeaveTimes n s = handleLeave s ∧
      (handleLeaveTimes n s).hasLeft = true ∧
      (handleLeaveTimes n s).emitted = s.emitted ++ ["leave-cabin"] ∧
      (handleLeaveTimes n s).stopped
        = s.stopped ++ tracksOf s.localStream ++ tracksOf s.screenStream ∧
      (handleLeaveTimes n s).closed = s.closed ++ s.peers.map (fun p => p.2.connectionId) ∧
      (handleLeaveTimes n s).destroyed = s.destroyed + 1 ∧
      (handleLeaveTimes n s).redirects = s.redirects + 1) ∧
    (s.hasLeft = true → handleLeave s = s) := by
  refine ⟨fun h hn => ?_, handleLeave_of_hasLeft s⟩
  obtain ⟨k, rfl⟩ : ∃ k, n = k + 1 := ⟨n - 1, by omega⟩
  have e : handleLeaveTimes (k + 1) s = handleLeave s := by
    rw [handleLeaveTimes, handleLeaveTimes_of_hasLeft k _ (handleLeave_hasLeft s)]
  rw [e]
  simp [handleLeave, h, disconnect]

/-- C10 at `twoParticipants`, left three times, and at the state it is then
in. -/
theorem handleLeave_once_witness :
    twoParticipants.hasLeft = false ∧ 1 ≤ 3 ∧
    (handleLeaveTimes 3 twoParticipants = handleLeave twoParticipants ∧
      (handleLeaveTimes 3 twoParticipants).hasLeft = true ∧
      (handleLeaveTimes 3 twoParticipants).emitted = twoParticipants.emitted ++ ["leave-cabin"] ∧
      (handleLeaveTimes 3 twoParticipants).stopped
        = twoParticipants.stopped ++ tracksOf twoParticipants.localStream
            ++ tracksOf twoParticipants.screenStream ∧
      (handleLeaveTimes 3 twoParticipants).closed
        = twoParticipants.closed ++ twoParticipants.peers.map (fun p => p.2.connectionId) ∧
      (handleLeaveTimes 3 twoParticipants).destroyed = twoParticipants.destroyed + 1 ∧
      (handleLeaveTimes 3 twoParticipants).redirects = twoParticipants.redirects + 1) ∧
    (handleLeave twoParticipants).hasLeft = true ∧
    handleLeave (handleLeave twoParticipants) = handleLeave twoParticipants :=
  ⟨rfl, by decide, (handleLeave_once twoParticipants 3).1 rfl (by decide), by decide,
    (handleLeave_once (handleLeave twoParticipants) 1).2 (by decide)⟩

/-! ## Media controls -/

theorem updateFirstWhere_of_find_none (p : Tile → Bool) (f : Tile → Tile) (ts : List Tile)
    (h : ts.find? p = none) : updateFirstWhere p f ts = none := by
  induction ts with
  | nil => rfl
  | cons t rest ih =>
    by_cases hp : p t = true
    · simp [List.find?_cons, hp] at h
    · have hp2 : p t = false := by simpa using hp
      simp only [List.find?_cons, hp2] at h
      simp [updateFirstWhere, hp2, ih h]

theorem updateFirstWhere_of_find_some (p : Tile → Bool) (f : Tile → Tile) (ts : List Tile)
    (t : Tile) (h : ts.find? p = some t) (hf : p (f t) = true) :
    ∃ ts1, updateFirstWhere p f ts = some ts1 ∧ ts1.find? p = some (f t) := by
  induction ts with
  | nil => simp at h
  | cons t0 rest ih =>
    by_cases hp : p t0 = true
    · simp only [List.find?_cons, hp, Option.some.injEq] at h
      subst h
      exact ⟨f t0 :: rest, by simp [updateFirstWhere, hp], by simp [List.find?_cons, hf]⟩
    · have hp2 : p t0 = false := by simpa using hp
      simp only [List.find?_cons, hp2] at h
      obtain ⟨ts1, h1, h2⟩ := ih h
      exact ⟨t0 :: ts1, by simp [updateFirstWhere, hp2, h1], by simp [List.find?_cons, hp2, h2]⟩

theorem find_updateWhere (p : Tile → Bool) (f : Tile → Tile) (gs : List Grid) (t : Tile)
    (h : (allTiles gs).find? p = some t) (hf : p (f t) = true) :
    (allTiles (updateWhere p f gs)).find? p = some (f t) := by
  induction gs with
  | nil => simp [allTiles] at h
  | cons g rest ih =>
    simp only [allTiles, List.flatMap_cons, List.find?_append] at h ih ⊢
    cases hg : g.tiles.find? p with
    | none =>
      simp only [hg, Option.or] at h
      simp only [updateWhere, updateFirstWhere_of_find_none p f g.tiles hg,
        List.flatMap_cons, List.find?_append, hg, Option.or]
      exact ih h
    | some t0 =>
      simp only [hg, Option.or, Option.some.injEq] at h
      subst h
      obtain ⟨ts1, h1, h2⟩ := updateFirstWhere_of_find_some p f g.tiles t0 hg hf
      simp only [updateWhere, h1, List.flatMap_cons, List.find?_append, h2, Option.or]

theorem mutedIndicator_update (s : State) (userId : UserId) (shown isMuted : Bool)
    (h : mutedIndicator s userId = some shown) :
    mutedIndicator (updateMutedIndicator s userId isMuted) userId = some isMuted := by
  unfold mutedIndicator at h
  cases hf : (allTiles s.grids).find? (hasMuted userId) with
  | none => simp [hf] at h
  | some t =>
    have hp : hasMuted userId t = true := List.find?_some hf
    have hq : hasMuted userId { t with muted := some isMuted } = true := by
      simp only [hasMuted, Bool.and_eq_true] at hp ⊢
      exact ⟨hp.1, rfl⟩
    have := find_updateWhere (hasMuted userId) (fun t => { t with muted := some isMuted })
      s.grids t hf hq
    simp only [mutedIndicator, updateMutedIndicator, this, Option.bind]

theorem contains_setEnabled (s : State) (track : Track) (value : Bool) (i : Nat) :
    (setEnabled s track value).disabled.contains i
      = if i = track.id then !value else s.disabled.contains i := by
  unfold setEnabled
  cases value with
  | true =>
    by_cases hi : i = track.id
    · simp [hi]
    · simp [hi]
  | false =>
    by_cases hc : s.disabled.contains track.id = true
    · simp only [Bool.false_eq_true, if_false, hc, if_true, Bool.not_false]
      by_cases hi : i = track.id
      · rw [if_pos hi, hi, hc]
      · rw [if_neg hi]
    · simp only [Bool.false_eq_true, if_false, hc, Bool.not_false]
      by_cases hi : i = track.id
      · simp [hi]
      · simp [hi]

theorem trackEnabled_setEnabled (s : State) (track other : Track) (value : Bool) :
    trackEnabled (setEnabled s track value) other
      = if other.id = track.id then value else trackEnabled s other := by
  unfold trackEnabled
  rw [contains_setEnabled]
  by_cases h : other.id = track.id <;> simp [h]

theorem setEnabled_grids (s : State) (track : Track) (value : Bool) :
    (setEnabled s track value).grids = s.grids ∧
    (setEnabled s track value).localStream = s.localStream := by
  unfold setEnabled
  split
  · exact ⟨rfl, rfl⟩
  · split
    · exact ⟨rfl, rfl⟩
    · exact ⟨rfl, rfl⟩

/-- What `toggleMediaTrack` does to the `enabled` flags and to the local
stream. -/
theorem toggleMediaTrack_flags (USER_ID : UserId) (s : State) (trackType : String) :
    (toggleMediaTrack USER_ID s trackType).localStream = s.localStream ∧
    ∀ other, trackEnabled (toggleMediaTrack USER_ID s trackType) other
      = match s.localStream with
        | none => trackEnabled s other
        | some localStream =>
          match localStream.tracks.find? (fun t => t.kind.name == trackType) with
          | none => trackEnabled s other
          | some track =>
            if other.id = track.id then !(trackEnabled s track) else trackEnabled s other := by
  cases hl : s.localStream with
  | none => simp [toggleMediaTrack, hl]
  | some localStream =>
    cases ht : localStream.tracks.find? (fun t => t.kind.name == trackType) with
    | none => simp [toggleMediaTrack, hl, ht]
    | some track =>
      have hs := setEnabled_grids s track (!(trackEnabled s track))
      have he := fun other => trackEnabled_setEnabled s track other (!(trackEnabled s track))
      simp only [toggleMediaTrack, hl, ht]
      by_cases ha : (trackType == "audio") = true
      · simp only [ha, if_true]
        refine ⟨by rw [← hl]; exact hs.2, fun other => ?_⟩
        rw [← he other]
        rfl
      · by_cases hv : (trackType == "video") = true
        · simp only [ha, hv, if_true, Bool.false_eq_true, if_false]
          refine ⟨by rw [← hl]; exact hs.2, fun other => ?_⟩
          rw [← he other]
          rfl
        · simp only [ha, hv, Bool.false_eq_true, if_false]
          exact ⟨by rw [← hl]; exact hs.2, fun other => he other⟩

theorem toggleMediaTrack_audio_indicator (USER_ID : UserId) (s : State)
    (localStream : MediaStream) (track : Track) (shown : Bool)
    (hl : s.localStream = some localStream)
    (ht : localStream.tracks.find? (fun t => t.kind.name == "audio") = some track)
    (hm : mutedIndicator s USER_ID = some shown) :
    mutedIndicator (toggleMediaTrack USER_ID s "audio") USER_ID = some (trackEnabled s track) := by
  have hg := (setEnabled_grids s track (!(trackEnabled s track))).1
  have hm1 : mutedIndicator (setEnabled s track (!(trackEnabled s track))) USER_ID
      = some shown := by
    simp only [mutedIndicator, hg] at hm ⊢
    exact hm
  have he := trackEnabled_setEnabled s track track (!(trackEnabled s track))
  rw [if_pos rfl] at he
  have hu := mutedIndicator_update _ USER_ID shown
    (!(trackEnabled (setEnabled s track (!(trackEnabled s track))) track)) hm1
  rw [he, Bool.not_not] at hu
  simp only [toggleMediaTrack, hl, ht]
  rw [if_pos (by decide)]
  rw [he, Bool.not_not]
  exact hu

theorem toggleMediaTrack_involution (USER_ID : UserId) (s0 : State) (trackType : String)
    (other : Track) :
    trackEnabled (toggleMediaTrack USER_ID (toggleMediaTrack USER_ID s0 trackType) trackType)
      other = trackEnabled s0 other := by
  have g1 := toggleMediaTrack_flags USER_ID s0 trackType
  have g2 := toggleMediaTrack_flags USER_ID (toggleMediaTrack USER_ID s0 trackType) trackType
  rw [g2.2 other, g1.1]
  cases hl0 : s0.localStream with
  | none =>
    have a2 := g1.2 other
    simp only [hl0] at a2
    simp only [a2]
  | some ls0 =>
    cases ht0 : ls0.tracks.find? (fun t => t.kind.name == trackType) with
    | none =>
      have a2 := g1.2 other
      simp only [hl0, ht0] at a2
      simp only [ht0, a2]
    | some tr =>
      have a1 := g1.2 tr
      have a2 := g1.2 other
      simp only [hl0, ht0, if_true] at a1 a2
      simp only [ht0, a1, a2]
      by_cases ho : other.id = tr.id
      · rw [if_pos ho, Bool.not_not]
        unfold trackEnabled
        rw [ho]
      · rw [if_neg ho, if_neg ho]

/-- C11: on a local stream whose audio track is enabled, with the local muted
indicator hidden, one `toggleMediaTrack('audio')` disables the track and shows
the indicator, and a second one enables the track again and hides the
indicator; for every kind, two calls of `toggleMediaTrack(kind)` leave the
`enabled` flag of every track as it was. -/
theorem toggleMediaTrack_twice (USER_ID : UserId) (s : State) (localStream : MediaStream)
    (track : Track) (hl : s.localStream = some localStream)
    (ht : localStream.tracks.find? (fun t => t.kind.name == "audio") = some track)
    (he : trackEnabled s track = true) (hm : mutedIndicator s USER_ID = some false) :
    (trackEnabled (toggleMediaTrack USER_ID s "audio") track = false ∧
      mutedIndicator (toggleMediaTrack USER_ID s "audio") USER_ID = some true) ∧
    (trackEnabled (toggleMediaTrack USER_ID (toggleMediaTrack USER_ID s "audio") "audio") track
        = true ∧
      mutedIndicator (toggleMediaTrack USER_ID (toggleMediaTrack USER_ID s "audio") "audio")
        USER_ID = some false) ∧
    ∀ (s0 : State) (trackType : String) (other : Track),
      trackEnabled (toggleMediaTrack USER_ID (toggleMediaTrack USER_ID s0 trackType) trackType)
        other = trackEnabled s0 other := by
  have h1 := toggleMediaTrack_flags USER_ID s "audio"
  have e1 : trackEnabled (toggleMediaTrack USER_ID s "audio") track = false := by
    rw [h1.2 track]
    simp [hl, ht, he]
  have m1 := toggleMediaTrack_audio_indicator USER_ID s localStream track false hl ht hm
  rw [he] at m1
  have hl1 : (toggleMediaTrack USER_ID s "audio").localStream = some localStream := by
    rw [h1.1, hl]
  have h2 := toggleMediaTrack_flags USER_ID (toggleMediaTrack USER_ID s "audio") "audio"
  have e2 : trackEnabled (toggleMediaTrack USER_ID (toggleMediaTrack USER_ID s "audio") "audio")
      track = true := by
    rw [h2.2 track]
    simp [hl1, ht, e1]
  have m2 := toggleMediaTrack_audio_indicator USER_ID (toggleMediaTrack USER_ID s "audio")
    localStream track true hl1 ht m1
  rw [e1] at m2
  exact ⟨⟨e1, m1⟩, ⟨e2, m2⟩, toggleMediaTrack_involution USER_ID⟩

/-- C11 at `twoParticipants`, whose local stream is `cameraStream`. -/
theorem toggleMediaTrack_twice_witness :
    twoParticipants.localStream = some cameraStream ∧
    trackEnabled twoParticipants { id := 1, kind := TrackKind.audio } = true ∧
    mutedIndicator twoParticipants "me" = some false ∧
    (trackEnabled (toggleMediaTrack "me" twoParticipants "audio")
        { id := 1, kind := TrackKind.audio } = false ∧
      mutedIndicator (toggleMediaTrack "me" twoParticipants "audio") "me" = some true) ∧
    (trackEnabled (toggleMediaTrack "me" (toggleMediaTrack "me" twoParticipants "audio") "audio")
        { id := 1, kind := TrackKind.audio } = true ∧
      mutedIndicator (toggleMediaTrack "me" (toggleMediaTrack "me" twoParticipants "audio")
        "audio") "me" = some false) :=
  ⟨rfl, by decide, by decide,
    (toggleMediaTrack_twice "me" twoParticipants cameraStream
      { id := 1, kind := TrackKind.audio } rfl (by decide) (by decide) (by decide)).1,
    (toggleMediaTrack_twice "me" twoParticipants cameraStream
      { id := 1, kind := TrackKind.audio } rfl (by decide) (by decide) (by decide)).2.1⟩

/-! ## Screen sharing and camera flip -/

/-- The fields `switchVideoSource` never writes. -/
theorem switchVideoSource_frame (s : State) (getNewStream : Except Error MediaStream) :
    (switchVideoSource s getNewStream).2.facing = s.facing ∧
    (switchVideoSource s getNewStream).2.screenStream = s.screenStream ∧
    (switchVideoSource s getNewStream).2.isScreenSharing = s.isScreenSharing ∧
    (switchVideoSource s getNewStream).2.alerts = s.alerts ∧
    (switchVideoSource s getNewStream).2.cameraRequests = s.cameraRequests ∧
    (switchVideoSource s getNewStream).2.onended = s.onended := by
  cases getNewStream with
  | error e => simp [switchVideoSource]
  | ok newStream =>
    cases hl : s.localStream with
    | none => simp [switchVideoSource, hl]
    | some localStream =>
      cases hv : localStream.getVideoTracks.head? <;>
        cases hn : newStream.getVideoTracks.head? <;>
        simp only [switchVideoSource, hl, hv, hn, replaceVideoTrackForAllPeers] <;>
        first
          | exact ⟨trivial, trivial, trivial, trivial, trivial, trivial⟩
          | exact ⟨rfl, rfl, rfl, rfl, rfl, rfl⟩
          | (split <;> exact ⟨rfl, rfl, rfl, rfl, rfl, rfl⟩)

theorem switchVideoSource_of (s : State) (newStream localStream : MediaStream) (v nv : Track)
    (hl : s.localStream = some localStream)
    (hv : localStream.getVideoTracks.head? = some v)
    (hn : newStream.getVideoTracks.head? = some nv)
    (hloop : (replaceVideoTrackLoop nv s.peers).1 = Except.ok ()) :
    (switchVideoSource s (Except.ok newStream)).1 = Except.ok newStream ∧
    (switchVideoSource s (Except.ok newStream)).2.localStream
      = some ((localStream.removeTrack v).addTrack nv) ∧
    (switchVideoSource s (Except.ok newStream)).2.peers
      = (replaceVideoTrackLoop nv s.peers).2 := by
  simp [switchVideoSource, hl, hv, hn, replaceVideoTrackForAllPeers, hloop]

theorem switchVideoSource_ok_inv (s : State) (newStream result : MediaStream)
    (h : (switchVideoSource s (Except.ok newStream)).1 = Except.ok result) :
    ∃ localStream nv, s.localStream = some localStream ∧
      newStream.getVideoTracks.head? = some nv ∧
      (replaceVideoTrackLoop nv s.peers).1 = Except.ok () := by
  cases hl : s.localStream with
  | none => simp [switchVideoSource, hl] at h
  | some localStream =>
    cases hn : newStream.getVideoTracks.head? with
    | none =>
      cases hv : localStream.getVideoTracks.head? <;>
        simp [switchVideoSource, hl, hv, hn] at h
    | some nv =>
      refine ⟨localStream, nv, rfl, rfl, ?_⟩
      cases hr : (replaceVideoTrackLoop nv s.peers).1 with
      | ok u => rfl
      | error e =>
        cases hv : localStream.getVideoTracks.head? <;>
          simp [switchVideoSource, hl, hv, hn, replaceVideoTrackForAllPeers, hr] at h

theorem replaceVideoTrackLoop_again (nv nv2 : Track) (peers : List (UserId × Call))
    (hok : (replaceVideoTrackLoop nv peers).1 = Except.ok ()) :
    (replaceVideoTrackLoop nv2 (replaceVideoTrackLoop nv peers).2).1 = Except.ok () := by
  induction peers with
  | nil => rfl
  | cons q rest ih =>
    obtain ⟨key, call⟩ := q
    cases hc : call.peerConnection with
    | none => simp [replaceVideoTrackLoop, hc] at hok
    | some senders =>
      simp only [replaceVideoTrackLoop, hc] at hok ⊢
      exact ih hok

/-- The video tracks of a stream after the swap of its one video track. -/
theorem swap_only_video_track (localStream : MediaStream) (v nv : Track)
    (hv : localStream.getVideoTracks = [v]) (hk : nv.kind = TrackKind.video) :
    ((localStream.removeTrack v).addTrack nv).getVideoTracks = [nv] := by
  have h1 : (localStream.removeTrack v).getVideoTracks = [] := by
    have : (localStream.removeTrack v).getVideoTracks
        = localStream.getVideoTracks.filter (fun t => !(t == v)) := by
      simp only [MediaStream.getVideoTracks, MediaStream.removeTrack, List.filter_filter]
      congr 1
      funext t
      exact Bool.and_comm _ _
    rw [this, hv]
    simp
  have h3 : (localStream.removeTrack v).tracks.contains nv = false := by
    by_contra hc
    have hc2 : nv ∈ (localStream.removeTrack v).tracks := by simpa using hc
    have : nv ∈ (localStream.removeTrack v).getVideoTracks := by
      simp only [MediaStream.getVideoTracks, List.mem_filter]
      exact ⟨hc2, by simp [hk]⟩
    rw [h1] at this
    simp at this
  simp only [MediaStream.addTrack, h3, Bool.false_eq_true, if_false]
  simp only [MediaStream.getVideoTracks] at h1 ⊢
  simp [List.filter_append, h1, hk]

theorem shareFailed_isScreenSharing (s : State) (error : Error) :
    (shareFailed s error).isScreenSharing = s.isScreenSharing := by
  unfold shareFailed
  split <;> rfl

/-- A `startScreenShare` that turned `isScreenSharing` on: the screen request
and the swap both succeeded, and the state is the one of the successful path. -/
theorem startScreenShare_success (s0 : State) (iOS : Bool)
    (getDisplayMedia : Except Error MediaStream) (hs0 : s0.isScreenSharing = false)
    (hs1 : (startScreenShare s0 iOS getDisplayMedia).isScreenSharing = true) :
    ∃ screenStream screenTrack localStream,
      getDisplayMedia = Except.ok screenStream ∧
      s0.localStream = some localStream ∧
      screenStream.getVideoTracks.head? = some screenTrack ∧
      (replaceVideoTrackLoop screenTrack s0.peers).1 = Except.ok () ∧
      startScreenShare s0 iOS getDisplayMedia
        = { (switchVideoSource { s0 with screenStream := some screenStream }
              (Except.ok screenStream)).2 with
            isScreenSharing := true,
            onended := (switchVideoSource { s0 with screenStream := some screenStream }
              (Except.ok screenStream)).2.onended ++ [screenTrack.id] } := by
  cases iOS with
  | true =>
    have h : s0.isScreenSharing = true := by
      simpa only [startScreenShare, if_true] using hs1
    rw [hs0] at h
    cases h
  | false =>
    cases getDisplayMedia with
    | error e =>
      simp only [startScreenShare, Bool.false_eq_true, if_false] at hs1
      rw [shareFailed_isScreenSharing, hs0] at hs1
      cases hs1
    | ok screenStream =>
      cases hr : (switchVideoSource { s0 with screenStream := some screenStream }
          (Except.ok screenStream)).1 with
      | error e =>
        have hf := (switchVideoSource_frame { s0 with screenStream := some screenStream }
          (Except.ok screenStream)).2.2.1
        simp only [startScreenShare, Bool.false_eq_true, if_false, hr] at hs1
        rw [shareFailed_isScreenSharing, hf] at hs1
        have h : s0.isScreenSharing = true := hs1
        rw [hs0] at h
        cases h
      | ok result =>
        obtain ⟨localStream, nv, hl, hn, hloop⟩ := switchVideoSource_ok_inv _ _ _ hr
        refine ⟨screenStream, nv, localStream, rfl, hl, hn, hloop, ?_⟩
        simp only [startScreenShare, Bool.false_eq_true, if_false, hr, hn]

/-- C12: after a `startScreenShare` that turned sharing on, the `ended` event of
the screen video track runs `stopScreenShare`; it requests the camera with the
facing mode of before the share (neither call writes `state.facing`), and when
that request succeeds it leaves `isScreenSharing = false`, `screenStream = null`
and the camera track as the one video track of the local stream. -/
theorem screenTrack_ended_restores_camera (s0 : State) (iOS : Bool)
    (getDisplayMedia : Except Error MediaStream)
    (getUserMedia : String → Except Error MediaStream)
    (localStream camera : MediaStream) (v cameraTrack : Track)
    (hl : s0.localStream = some localStream) (hv : localStream.getVideoTracks = [v])
    (hs0 : s0.isScreenSharing = false)
    (hs1 : (startScreenShare s0 iOS getDisplayMedia).isScreenSharing = true)
    (hcam : getUserMedia s0.facing = Except.ok camera)
    (hc : camera.getVideoTracks.head? = some cameraTrack) :
    ∃ screenStream screenTrack,
      getDisplayMedia = Except.ok screenStream ∧
      screenStream.getVideoTracks.head? = some screenTrack ∧
      (startScreenShare s0 iOS getDisplayMedia).onended.contains screenTrack.id = true ∧
      (startScreenShare s0 iOS getDisplayMedia).screenStream = some screenStream ∧
      (startScreenShare s0 iOS getDisplayMedia).facing = s0.facing ∧
      screenTrackEnded (startScreenShare s0 iOS getDisplayMedia) screenTrack getUserMedia
        = stopScreenShare (startScreenShare s0 iOS getDisplayMedia) getUserMedia ∧
      (stopScreenShare (startScreenShare s0 iOS getDisplayMedia) getUserMedia).cameraRequests
        = (startScreenShare s0 iOS getDisplayMedia).cameraRequests ++ [s0.facing] ∧
      (stopScreenShare (startScreenShare s0 iOS getDisplayMedia) getUserMedia).facing
        = s0.facing ∧
      (stopScreenShare (startScreenShare s0 iOS getDisplayMedia) getUserMedia).isScreenSharing
        = false ∧
      (stopScreenShare (startScreenShare s0 iOS getDisplayMedia) getUserMedia).screenStream
        = none ∧
      ∃ after,
        (stopScreenShare (startScreenShare s0 iOS getDisplayMedia) getUserMedia).localStream
          = some after ∧
        after.getVideoTracks = [cameraTrack] := by
  obtain ⟨screenStream, screenTrack, ls, hd, hl2, hn, hloop, hstart⟩ :=
    startScreenShare_success s0 iOS getDisplayMedia hs0 hs1
  rw [hl] at hl2
  cases hl2
  have hvh : localStream.getVideoTracks.head? = some v := by rw [hv]; rfl
  have hsk := kind_of_head_video screenStream screenTrack hn
  have hck := kind_of_head_video camera cameraTrack hc
  -- the state after the start
  have hsw := switchVideoSource_of { s0 with screenStream := some screenStream } screenStream
    localStream v screenTrack hl hvh hn hloop
  have hfr := switchVideoSource_frame { s0 with screenStream := some screenStream }
    (Except.ok screenStream)
  have hlocal1 : (startScreenShare s0 iOS getDisplayMedia).localStream
      = some ((localStream.removeTrack v).addTrack screenTrack) := by
    rw [hstart]; exact hsw.2.1
  have hpeers1 : (startScreenShare s0 iOS getDisplayMedia).peers
      = (replaceVideoTrackLoop screenTrack s0.peers).2 := by
    rw [hstart]; exact hsw.2.2
  have hscreen1 : (startScreenShare s0 iOS getDisplayMedia).screenStream
      = some screenStream := by
    rw [hstart]; exact hfr.2.1
  have hfacing1 : (startScreenShare s0 iOS getDisplayMedia).facing = s0.facing := by
    rw [hstart]; exact hfr.1
  have honended : (startScreenShare s0 iOS getDisplayMedia).onended.contains screenTrack.id
      = true := by
    rw [hstart]; simp
  have hvideo1 := swap_only_video_track localStream v screenTrack hv hsk
  -- the stop
  have hloop2 := replaceVideoTrackLoop_again screenTrack cameraTrack s0.peers hloop
  rw [← hpeers1] at hloop2
  have hvh1 : ((localStream.removeTrack v).addTrack screenTrack).getVideoTracks.head?
      = some screenTrack := by rw [hvideo1]; rfl
  have hsw2 := switchVideoSource_of
    { startScreenShare s0 iOS getDisplayMedia with
      stopped := (startScreenShare s0 iOS getDisplayMedia).stopped ++ screenStream.tracks,
      screenStream := none,
      cameraRequests := (startScreenShare s0 iOS getDisplayMedia).cameraRequests
        ++ [(startScreenShare s0 iOS getDisplayMedia).facing] }
    camera ((localStream.removeTrack v).addTrack screenTrack) screenTrack cameraTrack
    hlocal1 hvh1 hc hloop2
  have hfr2 := switchVideoSource_frame
    { startScreenShare s0 iOS getDisplayMedia with
      stopped := (startScreenShare s0 iOS getDisplayMedia).stopped ++ screenStream.tracks,
      screenStream := none,
      cameraRequests := (startScreenShare s0 iOS getDisplayMedia).cameraRequests
        ++ [(startScreenShare s0 iOS getDisplayMedia).facing] }
    (Except.ok camera)
  have hcam1 : getUserMedia (startScreenShare s0 iOS getDisplayMedia).facing
      = Except.ok camera := by rw [hfacing1, hcam]
  have hstop : stopScreenShare (startScreenShare s0 iOS getDisplayMedia) getUserMedia
      = { (switchVideoSource
            { startScreenShare s0 iOS getDisplayMedia with
              stopped := (startScreenShare s0 iOS getDisplayMedia).stopped
                ++ screenStream.tracks,
              screenStream := none,
              cameraRequests := (startScreenShare s0 iOS getDisplayMedia).cameraRequests
                ++ [(startScreenShare s0 iOS getDisplayMedia).facing] }
            (Except.ok camera)).2 with isScreenSharing := false } := by
    simp only [stopScreenShare, hscreen1, hcam1, hsw2.1]
  refine ⟨screenStream, screenTrack, hd, hn, honended, hscreen1, hfacing1, ?_, ?_, ?_, ?_, ?_, ?_⟩
  · unfold screenTrackEnded
    rw [if_pos honended]
  · rw [hstop]
    refine hfr2.2.2.2.2.1.trans ?_
    show (startScreenShare s0 iOS getDisplayMedia).cameraRequests
      ++ [(startScreenShare s0 iOS getDisplayMedia).facing] = _
    rw [hfacing1]
  · rw [hstop]
    exact hfr2.1.trans hfacing1
  · rw [hstop]
  · rw [hstop]
    exact hfr2.2.1
  · refine ⟨_, by rw [hstop]; exact hsw2.2.1, ?_⟩
    exact swap_only_video_track _ screenTrack cameraTrack hvideo1 hck

/-- C12 at `twoParticipants`: the share of `displayStream` starts, the screen
track ends, and the camera `newCamera` is requested with facing mode "user". -/
theorem screenTrack_ended_restores_camera_witness :
    twoParticipants.isScreenSharing = false ∧
    sharingSession.isScreenSharing = true ∧
    screenTrackEnded sharingSession { id := 2, kind := TrackKind.video }
        (fun _ => Except.ok newCamera)
      = stopScreenShare sharingSession (fun _ => Except.ok newCamera) ∧
    (stopScreenShare sharingSession (fun _ => Except.ok newCamera)).cameraRequests = ["user"] ∧
    (stopScreenShare sharingSession (fun _ => Except.ok newCamera)).isScreenSharing = false ∧
    (stopScreenShare sharingSession (fun _ => Except.ok newCamera)).screenStream = none ∧
    (stopScreenShare sharingSession (fun _ => Except.ok newCamera)).localStream
      = some { tracks := [{ id := 1, kind := TrackKind.audio },
                          { id := 5, kind := TrackKind.video }] } := by
  obtain ⟨screenStream, screenTrack, hd, hn, _, _, _, h1, h2, _, h3, h4, _⟩ :=
    screenTrack_ended_restores_camera twoParticipants false (Except.ok displayStream)
      (fun _ => Except.ok newCamera) cameraStream newCamera
      { id := 0, kind := TrackKind.video } { id := 5, kind := TrackKind.video }
      rfl (by decide) rfl (by decide) rfl (by decide)
  cases hd
  have ht : screenTrack = { id := 2, kind := TrackKind.video } :=
    (Option.some.inj hn).symm
  subst ht
  exact ⟨rfl, by decide, h1, h2, h3, h4, by decide⟩

/-! ## Failures that the code does not isolate -/

/-- C13: on `closingPeer`, whose second connection has a null `peerConnection`,
`replaceVideoTrackForAllPeers` throws a `TypeError`; the connection before it
carries the new track 2, the connection to "b" after it still carries track
0. -/
theorem replaceVideoTrackForAllPeers_aborts_on_null_peerConnection :
    (replaceVideoTrackForAllPeers closingPeer { id := 2, kind := TrackKind.video }).1
      = Except.error "TypeError" ∧
    (replaceVideoTrackForAllPeers closingPeer { id := 2, kind := TrackKind.video }).2.peers
      = [("a", callWith 7 { id := 2, kind := TrackKind.video } false),
         ("z", { connectionId := 3, peerConnection := none }),
         ("b", callWith 8 { id := 0, kind := TrackKind.video } false)] :=
  ⟨rfl, by decide⟩

/-- C14: on `listening`, the `ended` event of the audio track of "a" shows the
muted indicator, and the next firing of the interval on that track, whose
`enabled` flag is true, hides it again. -/
theorem ended_indicator_hidden_by_next_tick :
    listening.intervals.get? 0 = some ⟨"a", { id := 11, kind := TrackKind.audio }⟩ ∧
    trackEnabled listening { id := 11, kind := TrackKind.audio } = true ∧
    mutedIndicator (deliverAll listening
      [TrackEvent.ended { id := 11, kind := TrackKind.audio }]) "a" = some true ∧
    mutedIndicator (deliverAll listening
      [TrackEvent.ended { id := 11, kind := TrackKind.audio }, TrackEvent.tick 0]) "a"
      = some false := by
  decide

/-- C15: the `close` listener on `twoGridSession` for "d" leaves the emptied
`video-grid2` in the document and `gridNumber` at 2, where `removeUser`
followed by `calculateGrid`, as `handleUserDisconnected` runs them, removes the
grid; on `twoParticipants` it leaves the layout (2,1) of two tiles on the one
tile left. -/
theorem onClose_does_not_recompute_layout :
    (onClose twoGridSession "d").2.grids
      = [{ id := 1, tiles := [tileOf "me", tileOf "a", tileOf "b", tileOf "c"],
           layout := some ⟨2, 2⟩ },
         { id := 2, tiles := [], layout := some ⟨1, 1⟩ }] ∧
    (onClose twoGridSession "d").2.gridNumber = 2 ∧
    (calculateGrid (removeUser twoGridSession "d").2).grids
      = [{ id := 1, tiles := [tileOf "me", tileOf "a", tileOf "b", tileOf "c"],
           layout := some ⟨2, 2⟩ }] ∧
    (handleUserDisconnected "me" twoGridSession "d").2.grids
      = (calculateGrid (removeUser twoGridSession "d").2).grids ∧
    (onClose twoParticipants "a").2.grids
      = [{ id := 1, tiles := [tileOf "me"], layout := some ⟨2, 1⟩ }] ∧
    (calculateGrid (removeUser twoParticipants "a").2).grids
      = [{ id := 1, tiles := [tileOf "me"], layout := some ⟨1, 1⟩ }] ∧
    (onClose twoParticipants "a").2 ≠ calculateGrid (removeUser twoParticipants "a").2 ∧
    (onClose twoParticipants "a").1 = Except.ok () ∧
    (handleUserDisconnected "me" twoParticipants "a").1 = Except.ok () ∧
    (handleUserDisconnected "me" twoParticipants "a").2.grids
      = (calculateGrid (removeUser twoParticipants "a").2).grids :=
  ⟨by decide, by decide, by decide, by decide, by decide, by decide, by decide, rfl, rfl,
    by decide⟩

/-- C17: on `twoParticipants`, the leave button followed by the unload its
redirect causes runs `disconnect` twice: 'leave-cabin' is emitted twice, the
peer destroyed twice, the local tracks stopped twice. -/
theorem leave_then_unload_signals_twice :
    (onLeaveEvents twoParticipants [LeaveEvent.leave, LeaveEvent.unload]).emitted
      = ["leave-cabin", "leave-cabin"] ∧
    (onLeaveEvents twoParticipants [LeaveEvent.leave, LeaveEvent.unload]).destroyed = 2 ∧
    (onLeaveEvents twoParticipants [LeaveEvent.leave, LeaveEvent.unload]).stopped
      = cameraStream.tracks ++ cameraStream.tracks ∧
    (onLeaveEvents twoParticipants [LeaveEvent.leave]).emitted = ["leave-cabin"] := by
  decide

/-! ## Camera flip -/

theorem flipCamera_unsupported (s : State) (getUserMedia : String → Except Error MediaStream) :
    flipCamera s false getUserMedia
      = { s with alerts := s.alerts ++ ["Camera flipping is not supported on this device"] } := by
  simp [flipCamera]

theorem flipCamera_facing_of_ok (s : State) (getUserMedia : String → Except Error MediaStream)
    (result : MediaStream)
    (h : (switchVideoSource { s with cameraRequests := s.cameraRequests ++ [oppositeFacing s.facing] }
      (getUserMedia (oppositeFacing s.facing))).1 = Except.ok result) :
    (flipCamera s true getUserMedia).facing = oppositeFacing s.facing := by
  unfold oppositeFacing at h
  simp only [flipCamera, Bool.not_true, Bool.false_eq_true, if_false, h]
  rfl

theorem flipCamera_state_of_error (s : State) (getUserMedia : String → Except Error MediaStream)
    (error : Error)
    (h : (switchVideoSource { s with cameraRequests := s.cameraRequests ++ [oppositeFacing s.facing] }
      (getUserMedia (oppositeFacing s.facing))).1 = Except.error error) :
    (flipCamera s true getUserMedia).facing = s.facing := by
  have hf := (switchVideoSource_frame
    { s with cameraRequests := s.cameraRequests ++ [oppositeFacing s.facing] }
    (getUserMedia (oppositeFacing s.facing))).1
  unfold oppositeFacing at h hf
  simp only [flipCamera, Bool.not_true, Bool.false_eq_true, if_false, h]
  exact hf

theorem oppositeFacing_ne (facing : String)
    (hf : facing = "user" ∨ facing = "environment") :
    oppositeFacing facing ≠ facing ∧ oppositeFacing (oppositeFacing facing) = facing ∧
    (oppositeFacing facing = "user" ∨ oppositeFacing facing = "environment") := by
  rcases hf with h | h <;> subst h <;> decide

/-- C16, counterexample: when the page has no local stream, the device supports
facing modes and the camera request for "environment" succeeds, `flipCamera`
leaves `state.facing` at "user". -/
theorem flipCamera_without_local_stream_keeps_facing :
    (pageLoaded "vertical").facing = "user" ∧
    (pageLoaded "vertical").localStream = none ∧
    (flipCamera (pageLoaded "vertical") true (fun _ => Except.ok newCamera)).cameraRequests
      = ["environment"] ∧
    (flipCamera (pageLoaded "vertical") true (fun _ => Except.ok newCamera)).facing = "user" ∧
    (flipCamera (pageLoaded "vertical") true (fun _ => Except.ok newCamera)).alerts
      = ["Failed to flip camera. Please try again."] := by
  decide

/-- C16, amended: `flipCamera` changes `state.facing`, to the opposite mode, if
and only if the device reports facing-mode support and `switchVideoSource`
succeeds; when the capability is unsupported no camera is requested and facing,
local stream, peers and stopped tracks are untouched; when the request fails
facing, local stream and peers keep their values; and two flips that each
changed the facing mode restore the original one. -/
theorem flipCamera_changes_facing_iff (s : State) (facingMode : Bool)
    (getUserMedia : String → Except Error MediaStream)
    (hf : s.facing = "user" ∨ s.facing = "environment") :
    ((flipCamera s facingMode getUserMedia).facing ≠ s.facing ↔
      facingMode = true ∧ ∃ result,
        (switchVideoSource
          { s with cameraRequests := s.cameraRequests ++ [oppositeFacing s.facing] }
          (getUserMedia (oppositeFacing s.facing))).1 = Except.ok result) ∧
    ((flipCamera s facingMode getUserMedia).facing ≠ s.facing →
      (flipCamera s facingMode getUserMedia).facing = oppositeFacing s.facing) ∧
    (facingMode = false →
      (flipCamera s facingMode getUserMedia).cameraRequests = s.cameraRequests ∧
      (flipCamera s facingMode getUserMedia).facing = s.facing ∧
      (flipCamera s facingMode getUserMedia).localStream = s.localStream ∧
      (flipCamera s facingMode getUserMedia).peers = s.peers ∧
      (flipCamera s facingMode getUserMedia).stopped = s.stopped) ∧
    (∀ error, getUserMedia (oppositeFacing s.facing) = Except.error error →
      (flipCamera s facingMode getUserMedia).facing = s.facing ∧
      (flipCamera s facingMode getUserMedia).localStream = s.localStream ∧
      (flipCamera s facingMode getUserMedia).peers = s.peers) ∧
    (∀ getUserMedia2,
      (flipCamera s facingMode getUserMedia).facing ≠ s.facing →
      (flipCamera (flipCamera s facingMode getUserMedia) facingMode getUserMedia2).facing
        ≠ (flipCamera s facingMode getUserMedia).facing →
      (flipCamera (flipCamera s facingMode getUserMedia) facingMode getUserMedia2).facing
        = s.facing) := by
  obtain ⟨hne, hopp, hmem⟩ := oppositeFacing_ne s.facing hf
  -- the facing mode after one call, whatever the state
  have key : ∀ (t : State) (g : String → Except Error MediaStream),
      (t.facing = "user" ∨ t.facing = "environment") →
      ((flipCamera t facingMode g).facing ≠ t.facing ↔
        facingMode = true ∧ ∃ result,
          (switchVideoSource
            { t with cameraRequests := t.cameraRequests ++ [oppositeFacing t.facing] }
            (g (oppositeFacing t.facing))).1 = Except.ok result) ∧
      ((flipCamera t facingMode g).facing ≠ t.facing →
        (flipCamera t facingMode g).facing = oppositeFacing t.facing) := by
    intro t g ht
    obtain ⟨tne, _, _⟩ := oppositeFacing_ne t.facing ht
    cases facingMode with
    | false =>
      rw [flipCamera_unsupported]
      exact ⟨⟨fun h => absurd rfl h, fun h => by cases h.1⟩, fun h => absurd rfl h⟩
    | true =>
      cases hr : (switchVideoSource
          { t with cameraRequests := t.cameraRequests ++ [oppositeFacing t.facing] }
          (g (oppositeFacing t.facing))).1 with
      | ok result =>
        have e := flipCamera_facing_of_ok t g result hr
        exact ⟨⟨fun _ => ⟨rfl, result, rfl⟩, fun _ => by rw [e]; exact tne⟩, fun _ => e⟩
      | error err =>
        have e := flipCamera_state_of_error t g err hr
        refine ⟨⟨fun h => absurd e h, fun h => ?_⟩, fun h => absurd e h⟩
        obtain ⟨_, result, h2⟩ := h
        cases h2
  refine ⟨(key s getUserMedia hf).1, (key s getUserMedia hf).2, ?_, ?_, ?_⟩
  · intro hm
    subst hm
    rw [flipCamera_unsupported]
    exact ⟨rfl, rfl, rfl, rfl, rfl⟩
  · intro error herr
    cases facingMode with
    | false =>
      rw [flipCamera_unsupported]
      exact ⟨rfl, rfl, rfl⟩
    | true =>
      unfold oppositeFacing at herr
      simp only [flipCamera, Bool.not_true, Bool.false_eq_true, if_false, herr,
        switchVideoSource]
      exact ⟨trivial, trivial, trivial⟩
  · intro getUserMedia2 h1 h2
    have e1 := (key s getUserMedia hf).2 h1
    have hf1 : (flipCamera s facingMode getUserMedia).facing = "user" ∨
        (flipCamera s facingMode getUserMedia).facing = "environment" := by
      rw [e1]; exact hmem
    have e2 := (key (flipCamera s facingMode getUserMedia) getUserMedia2 hf1).2 h2
    rw [e2, e1, hopp]

/-- C16, amended, at `twoParticipants`: one flip gives "environment", a second
one gives "user" again. -/
theorem flipCamera_changes_facing_iff_witness :
    (twoParticipants.facing = "user" ∨ twoParticipants.facing = "environment") ∧
    (flipCamera twoParticipants true (fun _ => Except.ok newCamera)).facing
      = oppositeFacing twoParticipants.facing ∧
    (flipCamera (flipCamera twoParticipants true (fun _ => Except.ok newCamera)) true
      (fun _ => Except.ok cameraStream)).facing = twoParticipants.facing :=
  ⟨Or.inl rfl,
    (flipCamera_changes_facing_iff twoParticipants true (fun _ => Except.ok newCamera)
      (Or.inl rfl)).2.1 (by decide),
    (flipCamera_changes_facing_iff twoParticipants true (fun _ => Except.ok newCamera)
      (Or.inl rfl)).2.2.2.2 (fun _ => Except.ok cameraStream) (by decide) (by decide)⟩

/-! ## Ownership of the screen stream -/

theorem shareFailed_screen (s : State) (error : Error) :
    (shareFailed s error).screenStream = s.screenStream ∧
    (shareFailed s error).isScreenSharing = s.isScreenSharing := by
  unfold shareFailed
  split <;> exact ⟨rfl, rfl⟩

/-- C19, counterexample: on `sharingSession`, a `stopScreenShare` whose camera
request fails completes with `screenStream = null` and `isScreenSharing` still
true, and `toggleScreenShare` then changes nothing. -/
theorem stopScreenShare_failure_leaves_sharing_without_stream :
    sharingSession.isScreenSharing = true ∧
    sharingSession.screenStream = some displayStream ∧
    (stopScreenShare sharingSession (fun _ => Except.error "NotReadableError")).screenStream
      = none ∧
    (stopScreenShare sharingSession (fun _ => Except.error "NotReadableError")).isScreenSharing
      = true ∧
    toggleScreenShare
        (stopScreenShare sharingSession (fun _ => Except.error "NotReadableError"))
        false (Except.ok displayStream) (fun _ => Except.ok newCamera)
      = stopScreenShare sharingSession (fun _ => Except.error "NotReadableError") := by
  decide

/-- C19, amended: from a state in which `screenStream` is non-null exactly when
`isScreenSharing` is true, the same holds after a `startScreenShare` that is
refused on iOS or whose screen request fails (both fields are unchanged), after
a `startScreenShare` whose swap succeeds (the stream is owned and sharing is
on), after a `stopScreenShare` that finds no screen stream (nothing changes),
and after a `stopScreenShare` whose swap succeeds (no stream, sharing off). -/
theorem screenStream_owned_iff_sharing (s : State) (iOS : Bool)
    (getDisplayMedia : Except Error MediaStream)
    (getUserMedia : String → Except Error MediaStream)
    (h : s.screenStream.isSome = s.isScreenSharing) :
    (iOS = true →
      (startScreenShare s iOS getDisplayMedia).screenStream.isSome
        = (startScreenShare s iOS getDisplayMedia).isScreenSharing) ∧
    (∀ error, getDisplayMedia = Except.error error →
      (startScreenShare s iOS getDisplayMedia).screenStream.isSome
        = (startScreenShare s iOS getDisplayMedia).isScreenSharing) ∧
    (∀ screenStream result, iOS = false → getDisplayMedia = Except.ok screenStream →
      (switchVideoSource { s with screenStream := some screenStream }
        (Except.ok screenStream)).1 = Except.ok result →
      (startScreenShare s iOS getDisplayMedia).screenStream = some screenStream ∧
      (startScreenShare s iOS getDisplayMedia).isScreenSharing = true) ∧
    (s.screenStream = none → stopScreenShare s getUserMedia = s) ∧
    (∀ screenStream result, s.screenStream = some screenStream →
      (switchVideoSource
        { s with stopped := s.stopped ++ screenStream.tracks, screenStream := none,
                 cameraRequests := s.cameraRequests ++ [s.facing] }
        (getUserMedia s.facing)).1 = Except.ok result →
      (stopScreenShare s getUserMedia).screenStream = none ∧
      (stopScreenShare s getUserMedia).isScreenSharing = false) := by
  refine ⟨?_, ?_, ?_, ?_, ?_⟩
  · intro hi
    subst hi
    simpa only [startScreenShare, if_true] using h
  · intro error he
    subst he
    cases iOS with
    | true => simpa only [startScreenShare, if_true] using h
    | false =>
      simp only [startScreenShare, Bool.false_eq_true, if_false]
      rw [(shareFailed_screen s error).1, (shareFailed_screen s error).2]
      exact h
  · intro screenStream result hi hd hr
    subst hi
    subst hd
    obtain ⟨localStream, nv, _, hn, _⟩ := switchVideoSource_ok_inv _ _ _ hr
    have hfr := switchVideoSource_frame { s with screenStream := some screenStream }
      (Except.ok screenStream)
    simp only [startScreenShare, Bool.false_eq_true, if_false, hr, hn]
    exact ⟨hfr.2.1, trivial⟩
  · intro hn
    simp only [stopScreenShare, hn]
  · intro screenStream result hs hr
    have hfr := switchVideoSource_frame
      { s with stopped := s.stopped ++ screenStream.tracks, screenStream := none,
               cameraRequests := s.cameraRequests ++ [s.facing] }
      (getUserMedia s.facing)
    simp only [stopScreenShare, hs, hr]
    exact ⟨hfr.2.1, trivial⟩

/-- C19, amended, at `twoParticipants` and `sharingSession`: the share starts
and is owned, then stops and is released. -/
theorem screenStream_owned_iff_sharing_witness :
    twoParticipants.screenStream.isSome = twoParticipants.isScreenSharing ∧
    ((startScreenShare twoParticipants false (Except.ok displayStream)).screenStream
        = some displayStream ∧
      (startScreenShare twoParticipants false (Except.ok displayStream)).isScreenSharing
        = true) ∧
    sharingSession.screenStream.isSome = sharingSession.isScreenSharing ∧
    ((stopScreenShare sharingSession (fun _ => Except.ok newCamera)).screenStream = none ∧
      (stopScreenShare sharingSession (fun _ => Except.ok newCamera)).isScreenSharing
        = false) :=
  ⟨rfl,
    (screenStream_owned_iff_sharing twoParticipants false (Except.ok displayStream)
      (fun _ => Except.ok newCamera) rfl).2.2.1 displayStream displayStream rfl rfl rfl,
    by decide,
    (screenStream_owned_iff_sharing sharingSession false (Except.ok displayStream)
      (fun _ => Except.ok newCamera) (by decide)).2.2.2.2 displayStream newCamera
      (by decide) rfl⟩

/-! ## Conservation of tiles and convergence of the layout -/

theorem allTiles_append (xs ys : List Grid) :
    allTiles (xs ++ ys) = allTiles xs ++ allTiles ys := by
  simp [allTiles]

theorem allTiles_cons (g : Grid) (gs : List Grid) :
    allTiles (g :: gs) = g.tiles ++ allTiles gs := by
  simp [allTiles]

theorem tiles_of_pass_perm (type : String) (gs : List Grid) (index : Nat) :
    (allTiles ((gs.filter Grid.nonEmpty).map (passGrid type))
      ++ allTiles (createdGrids gs index)).Perm (allTiles gs) := by
  induction gs generalizing index with
  | nil => simp [allTiles, createdGrids]
  | cons g rest ih =>
    by_cases h0 : g.tiles.length = 0
    · have hne : g.nonEmpty = false := by simp [Grid.nonEmpty, h0]
      have h4 : ¬ 4 < g.tiles.length := by omega
      have hnil : g.tiles = [] := List.length_eq_zero.1 h0
      simp only [List.filter_cons, hne, Bool.false_eq_true, if_false, createdGrids, h4,
        allTiles_cons, hnil, List.nil_append]
      exact ih (index + 1)
    · have hne : g.nonEmpty = true := by simp [Grid.nonEmpty, h0]
      by_cases h4 : 4 < g.tiles.length
      · simp only [List.filter_cons, hne, if_true, List.map_cons, createdGrids, h4,
          allTiles_cons, passGrid]
        have hsplit : g.tiles = g.tiles.take 1 ++ g.tiles.drop 1 :=
          (List.take_append_drop 1 g.tiles).symm
        have e1 : ((g.tiles.drop 1 ++ allTiles ((rest.filter Grid.nonEmpty).map (passGrid type)))
            ++ (g.tiles.take 1 ++ allTiles (createdGrids rest (index + 1)))).Perm
            ((g.tiles.take 1 ++ g.tiles.drop 1)
              ++ (allTiles ((rest.filter Grid.nonEmpty).map (passGrid type))
                ++ allTiles (createdGrids rest (index + 1)))) := by
          rw [← Multiset.coe_eq_coe]
          simp only [← Multiset.coe_add]
          abel
        rw [← hsplit] at e1
        exact e1.trans (List.Perm.append_left _ (ih (index + 1)))
      · simp only [List.filter_cons, hne, if_true, List.map_cons, createdGrids, h4,
          if_false, allTiles_cons, passGrid, List.append_assoc]
        exact List.Perm.append_left _ (ih (index + 1))

/-- C20: `calculateGrid` conserves tiles: the tiles of the document after the
pass are the tiles of before, each as many times as before, and a grid that
held one to four tiles keeps all its tiles in their order (it only takes its
layout, and moves up by the number of empty grids removed before it). -/
theorem calculateGrid_conserves_tiles (s : State) :
    (allTiles (calculateGrid s).grids).Perm (allTiles s.grids) ∧
    ∀ (i : Nat) (g : Grid), s.grids[i]? = some g → g.tiles.length ≠ 0 →
      g.tiles.length ≤ 4 →
      (calculateGrid s).grids[(s.grids.take i).countP Grid.nonEmpty]?
        = some { g with layout := some (calculateGridLayout g.tiles.length s.type) } := by
  constructor
  · rw [calculateGrid_grids, allTiles_append]
    exact tiles_of_pass_perm s.type s.grids 0
  · intro i g hg h0 h4
    have hne : g.nonEmpty = true := by simp [Grid.nonEmpty, h0]
    have hk := filter_getElem?_of_getElem? Grid.nonEmpty s.grids i g hg hne
    have hlt := (List.getElem?_eq_some.1 hk).1
    rw [calculateGrid_grids, List.getElem?_append_left (by simpa using hlt),
      List.getElem?_map, hk]
    have h4n : ¬ 4 < g.tiles.length := by omega
    simp only [Option.map_some', passGrid, if_neg h4n]

/-- C20 at `threeGrids`: the six tiles are kept, and the grid of the single
tile "f", third before the pass, is second after it with that tile. -/
theorem calculateGrid_conserves_tiles_witness :
    (allTiles (calculateGrid threeGrids).grids).Perm (allTiles threeGrids.grids) ∧
    threeGrids.grids[2]? = some ⟨3, [tileOf "f"], none⟩ ∧
    (calculateGrid threeGrids).grids[(threeGrids.grids.take 2).countP Grid.nonEmpty]?
      = some ⟨3, [tileOf "f"], some (calculateGridLayout (1 : Nat) threeGrids.type)⟩ :=
  ⟨(calculateGrid_conserves_tiles threeGrids).1, rfl,
    (calculateGrid_conserves_tiles threeGrids).2 2 ⟨3, [tileOf "f"], none⟩ rfl
      (by decide) (by decide)⟩

theorem excessTiles_append (xs ys : List Grid) :
    excessTiles (xs ++ ys) = excessTiles xs + excessTiles ys := by
  simp [excessTiles]

theorem excessTiles_createdGrids (gs : List Grid) (index : Nat) :
    excessTiles (createdGrids gs index) = 0 := by
  induction gs generalizing index with
  | nil => rfl
  | cons g rest ih =>
    by_cases h4 : 4 < g.tiles.length
    · have := ih (index + 1)
      simp only [excessTiles] at this ⊢
      simp only [createdGrids, h4, if_true, List.map_cons, List.sum_cons, List.length_take,
        this]
      omega
    · simpa [createdGrids, h4] using ih (index + 1)

theorem excessTiles_kept (type : String) (gs : List Grid) :
    excessTiles ((gs.filter Grid.nonEmpty).map (passGrid type)) + gs.countP Grid.overfull
      = excessTiles gs := by
  induction gs with
  | nil => rfl
  | cons g rest ih =>
    simp only [excessTiles] at ih ⊢
    by_cases h0 : g.tiles.length = 0
    · have hne : g.nonEmpty = false := by simp [Grid.nonEmpty, h0]
      have hov : g.overfull = false := by simp [Grid.overfull, h0]
      simp only [List.filter_cons, hne, Bool.false_eq_true, if_false, List.countP_cons, hov,
        List.map_cons, List.sum_cons, h0]
      omega
    · have hne : g.nonEmpty = true := by simp [Grid.nonEmpty, h0]
      by_cases h4 : 4 < g.tiles.length
      · have hov : g.overfull = true := by simp [Grid.overfull, h4]
        simp only [List.filter_cons, hne, if_true, List.countP_cons, hov, List.map_cons,
          List.sum_cons, passGrid, h4, List.length_drop]
        omega
      · have hov : g.overfull = false := by simp [Grid.overfull, h4]
        simp only [List.filter_cons, hne, if_true, List.countP_cons, hov, List.map_cons,
          List.sum_cons, passGrid, h4, if_false, Bool.false_eq_true]
        omega

/-- The excess tiles after one pass: one less for each overfull grid. -/
theorem excessTiles_calculateGrid (s : State) :
    excessTiles (calculateGrid s).grids + s.grids.countP Grid.overfull
      = excessTiles s.grids := by
  rw [calculateGrid_grids, excessTiles_append, excessTiles_createdGrids]
  exact excessTiles_kept s.type s.grids

theorem excessTiles_eq_zero (gs : List Grid) :
    excessTiles gs = 0 ↔ ∀ g ∈ gs, g.tiles.length ≤ 4 := by
  induction gs with
  | nil => simp [excessTiles]
  | cons g rest ih =>
    simp only [excessTiles] at ih
    simp only [excessTiles, List.map_cons, List.sum_cons, List.mem_cons, forall_eq_or_imp,
      Nat.add_eq_zero_iff, ih]
    constructor
    · rintro ⟨h1, h2⟩
      exact ⟨by omega, h2⟩
    · rintro ⟨h1, h2⟩
      exact ⟨by omega, h2⟩

theorem countP_overfull_pos (gs : List Grid) (h : 0 < excessTiles gs) :
    0 < gs.countP Grid.overfull := by
  by_contra hc
  have hz : gs.countP Grid.overfull = 0 := by omega
  have hall : ∀ g ∈ gs, g.tiles.length ≤ 4 := by
    intro g hg
    have := (List.countP_eq_zero.1 hz) g hg
    simp only [Grid.overfull, decide_eq_true_eq] at this
    omega
  have := (excessTiles_eq_zero gs).2 hall
  omega

theorem calculateGrid_no_empty (s : State) :
    ∀ g ∈ (calculateGrid s).grids, 1 ≤ g.tiles.length := by
  intro g hg
  rw [calculateGrid_grids, List.mem_append] at hg
  rcases hg with hg | hg
  · obtain ⟨g0, hg0, rfl⟩ := List.mem_map.1 hg
    obtain ⟨_, hne⟩ := List.mem_filter.1 hg0
    have h1 : g0.tiles.length ≠ 0 := by simpa [Grid.nonEmpty] using hne
    unfold passGrid
    by_cases h4 : 4 < g0.tiles.length
    · simp only [if_pos h4, List.length_drop]
      omega
    · simp only [if_neg h4]
      omega
  · obtain ⟨g0, _, h4, ht⟩ := mem_createdGrids s.grids 0 g hg
    rw [ht, List.length_take]
    omega

theorem createdGrids_of_none_overfull (gs : List Grid) (index : Nat)
    (h : ∀ g ∈ gs, g.tiles.length ≤ 4) : createdGrids gs index = [] := by
  induction gs generalizing index with
  | nil => rfl
  | cons g rest ih =>
    have h4 : ¬ 4 < g.tiles.length := by
      have := h g (by simp)
      omega
    simp only [createdGrids, h4, if_false]
    exact ih (index + 1) (fun x hx => h x (by simp [hx]))

/-- A pass over grids that all hold one to four tiles keeps every grid with its
tiles. -/
theorem calculateGrid_stable (s : State)
    (h : ∀ g ∈ s.grids, 1 ≤ g.tiles.length ∧ g.tiles.length ≤ 4) :
    gridContents (calculateGrid s).grids = gridContents s.grids := by
  have hf : s.grids.filter Grid.nonEmpty = s.grids := by
    rw [List.filter_eq_self]
    intro g hg
    have := (h g hg).1
    simp only [Grid.nonEmpty, decide_eq_true_eq]
    omega
  rw [calculateGrid_grids, hf, createdGrids_of_none_overfull s.grids 0 (fun g hg => (h g hg).2),
    List.append_nil]
  simp only [gridContents, List.map_map]
  apply List.map_congr_left
  intro g hg
  have h4 : ¬ 4 < g.tiles.length := by
    have := (h g hg).2
    omega
  simp [passGrid, h4]

theorem bounds_of_gridContents (xs ys : List Grid) (he : gridContents xs = gridContents ys)
    (h : ∀ g ∈ ys, 1 ≤ g.tiles.length ∧ g.tiles.length ≤ 4) :
    ∀ g ∈ xs, 1 ≤ g.tiles.length ∧ g.tiles.length ≤ 4 := by
  intro g hg
  have hm : (g.id, g.tiles) ∈ gridContents xs := List.mem_map.2 ⟨g, hg, rfl⟩
  rw [he] at hm
  obtain ⟨g2, hg2, e⟩ := List.mem_map.1 hm
  have et : g2.tiles = g.tiles := (Prod.mk.inj e).2
  rw [← et]
  exact h g2 hg2

theorem calculateGridTimes_succ (n : Nat) (s : State) :
    calculateGridTimes (n + 1) s = calculateGrid (calculateGridTimes n s) := by
  induction n generalizing s with
  | zero => rfl
  | succ k ih =>
    rw [calculateGridTimes, ih (calculateGrid s)]
    rfl

theorem excessTiles_calculateGridTimes (n : Nat) (s : State) :
    excessTiles (calculateGridTimes n s).grids ≤ excessTiles s.grids - n := by
  induction n with
  | zero => exact Nat.le_refl _
  | succ k ih =>
    rw [calculateGridTimes_succ]
    have h1 := excessTiles_calculateGrid (calculateGridTimes k s)
    by_cases hz : excessTiles (calculateGridTimes k s).grids = 0
    · omega
    · have := countP_overfull_pos (calculateGridTimes k s).grids (by omega)
      omega

/-- C18: repeated `calculateGrid` converges: after `excessTiles + 1` passes every
grid holds one to four tiles, every further pass keeps each grid with its tiles,
and a pass that finds an overfull grid strictly lowers the number of excess
tiles. -/
theorem calculateGrid_converges (s : State) :
    (∀ g ∈ (calculateGridTimes (excessTiles s.grids + 1) s).grids,
      1 ≤ g.tiles.length ∧ g.tiles.length ≤ 4) ∧
    (∀ m, excessTiles s.grids + 1 ≤ m →
      gridContents (calculateGridTimes m s).grids
        = gridContents (calculateGridTimes (excessTiles s.grids + 1) s).grids) ∧
    (∀ t : State, 0 < t.grids.countP Grid.overfull →
      excessTiles (calculateGrid t).grids < excessTiles t.grids) := by
  have hfix : ∀ g ∈ (calculateGridTimes (excessTiles s.grids + 1) s).grids,
      1 ≤ g.tiles.length ∧ g.tiles.length ≤ 4 := by
    intro g hg
    have hz : excessTiles (calculateGridTimes (excessTiles s.grids + 1) s).grids = 0 := by
      have := excessTiles_calculateGridTimes (excessTiles s.grids + 1) s
      omega
    refine ⟨?_, (excessTiles_eq_zero _).1 hz g hg⟩
    rw [calculateGridTimes_succ] at hg
    exact calculateGrid_no_empty _ g hg
  refine ⟨hfix, ?_, ?_⟩
  · intro m hm
    obtain ⟨k, rfl⟩ : ∃ k, m = excessTiles s.grids + 1 + k := ⟨m - (excessTiles s.grids + 1), by omega⟩
    clear hm
    induction k with
    | zero => rfl
    | succ k ih =>
      have e : excessTiles s.grids + 1 + (k + 1) = (excessTiles s.grids + 1 + k) + 1 := by omega
      rw [e, calculateGridTimes_succ]
      have hb := bounds_of_gridContents _ _ ih hfix
      rw [calculateGrid_stable _ hb]
      exact ih
  · intro t ht
    have := excessTiles_calculateGrid t
    omega

/-- C18 at `threeGrids`, which has one excess tile: after two passes the grids
hold four, one and one tiles, and a third pass keeps them. -/
theorem calculateGrid_converges_witness :
    excessTiles threeGrids.grids + 1 = 2 ∧
    (∀ g ∈ (calculateGridTimes 2 threeGrids).grids,
      1 ≤ g.tiles.length ∧ g.tiles.length ≤ 4) ∧
    gridContents (calculateGridTimes 3 threeGrids).grids
      = gridContents (calculateGridTimes 2 threeGrids).grids ∧
    0 < threeGrids.grids.countP Grid.overfull ∧
    excessTiles (calculateGrid threeGrids).grids < excessTiles threeGrids.grids :=
  ⟨by decide, (calculateGrid_converges threeGrids).1,
    (calculateGrid_converges threeGrids).2.1 3 (by decide), by decide,
    (calculateGrid_converges threeGrids).2.2 threeGrids (by decide)⟩

end Cabin
